import Mathlib

/-!
# loguru `fast_now` extension: cached timezone-transition lookup

Shallow embedding of `src/loguru/_extensions/fast_now.c`.

* The module's static variables are a record (`Globals`), passed explicitly.
* `long long` and `Py_ssize_t` values are integers; the two sentinels are
  `PY_LLONG_MIN` and `PY_LLONG_MAX`.
* The sequences held in `fast_now_timestamps` and `fast_now_indexes` are only
  ever read through `PyLong_AsLongLong`, so they are represented by the list of
  values that call yields.
* `PySequence_Fast_GET_ITEM` does no bounds check: a read outside the sequence
  is undefined behaviour in C and is the `undefined` outcome here.
* The `while` loop of `fast_now_now` is a fuelled recursion that still performs
  the source's own test `idx < size`.
-/

namespace FastNow

/-! ## Values -/

/-- Smallest `long long`. -/
def PY_LLONG_MIN : Int := -9223372036854775808

/-- Largest `long long`. -/
def PY_LLONG_MAX : Int := 9223372036854775807

/-- Python objects as far as the extension tells them apart: the `None`
singleton, type objects and all other objects, compared by identity. -/
inductive PyObject where
  | Py_None
  | type (id : Nat)
  | object (id : Nat)
  deriving DecidableEq, Repr

/-- The test `PyType_Check(o)`. -/
def PyType_Check : PyObject → Bool
  | .type _ => true
  | _ => false

/-- Result of running a piece of the C code. -/
inductive Outcome (α : Type) where
  | ok (value : α)
  | undefined
  | outOfFuel
  deriving DecidableEq, Repr

/-- The size `PySequence_Fast_GET_SIZE(s)` as a `Py_ssize_t`. -/
def PySequence_Fast_GET_SIZE {α : Type} (s : List α) : Int := s.length

/-- The read `PySequence_Fast_GET_ITEM(s, i)`; `none` stands for a read outside
the sequence. -/
def PySequence_Fast_GET_ITEM {α : Type} (s : List α) (i : Int) : Option α :=
  if 0 ≤ i then s[i.toNat]? else none

/-! ## The static variables -/

/-- The eight static variables of the module, once `fast_now_init` has set them. -/
structure Globals where
  fast_now_class : PyObject
  fast_now_tzinfos : List PyObject
  fast_now_timestamps : List Int
  fast_now_indexes : List Int
  fast_now_tzinfo : PyObject
  fast_now_post_transition_secs : Int
  fast_now_pre_transition_secs : Int
  fast_now_transition_index : Int
  deriving DecidableEq, Repr

/-! ## `fast_now_init` -/

/-- An argument handed to `PySequence_Fast`: an iterable, given by the items it
yields, or an object that cannot be iterated. -/
inductive SeqArg (α : Type) where
  | iterable (items : List α)
  | notIterable
  deriving DecidableEq, Repr

/-- The call `PySequence_Fast(o, msg)`; `none` is the `NULL` result. -/
def PySequence_Fast {α : Type} : SeqArg α → Option (List α)
  | .iterable items => some items
  | .notIterable => none

/-- The five locals of `fast_now_init` once `PyArg_ParseTuple(args, "OOOOn", ...)`
has filled them. -/
structure InitArgs where
  cls : PyObject
  tzinfos : SeqArg PyObject
  timestamps : SeqArg Int
  indexes : SeqArg Int
  default_index : Int
  deriving DecidableEq, Repr

/-- The exceptions raised by `init`, one per `return NULL` of lines 25-52: the
failure of `PyArg_ParseTuple` and the five `TypeError`s that follow it. -/
inductive InitError where
  | argumentsNotParsed
  | classNotType
  | tzinfosNotSequence
  | timestampsNotSequence
  | indexesNotSequence
  | sizeMismatch
  deriving DecidableEq, Repr

/-- What a Python-level call gives back: `None`, or an exception. -/
inductive PyResult where
  | None
  | raised (e : InitError)
  deriving DecidableEq, Repr

/-- The function `fast_now_init` from line 29 on, run on the five locals that
`PyArg_ParseTuple` has filled (the parse of lines 25-27 is `PyArg_ParseTuple`, the
whole call is `fast_now_init_call`). `statics` is `none` while the static pointers
are still `NULL`. The result pairs the statics after the call with the value
returned to Python. -/
def fast_now_init (statics : Option Globals) (a : InitArgs) :
    Outcome (Option Globals × PyResult) :=
  if ¬ PyType_Check a.cls then .ok (statics, .raised .classNotType)
  else
    match PySequence_Fast a.tzinfos with
    | none => .ok (statics, .raised .tzinfosNotSequence)
    | some tzinfos =>
      match PySequence_Fast a.timestamps with
      | none => .ok (statics, .raised .timestampsNotSequence)
      | some timestamps =>
        match PySequence_Fast a.indexes with
        | none => .ok (statics, .raised .indexesNotSequence)
        | some indexes =>
          if PySequence_Fast_GET_SIZE timestamps ≠ PySequence_Fast_GET_SIZE indexes then
            .ok (statics, .raised .sizeMismatch)
          else
            match PySequence_Fast_GET_ITEM tzinfos a.default_index with
            | none => .undefined
            | some tzinfo =>
              .ok (some
                { fast_now_class := a.cls
                  fast_now_tzinfos := tzinfos
                  fast_now_timestamps := timestamps
                  fast_now_indexes := indexes
                  fast_now_tzinfo := tzinfo
                  fast_now_pre_transition_secs := PY_LLONG_MIN
                  fast_now_post_transition_secs := PY_LLONG_MIN
                  fast_now_transition_index := -1 }, .None)

/-! ## The window update of `fast_now_now` -/

/-- The `while (idx < size)` loop of `fast_now_now` (lines 122-145), entered
with the local variables `idx` and `pre_tr_secs`. -/
def scanLoop (g : Globals) (secs : Int) : Nat → Int → Int → Outcome Globals
  | 0, _, _ => .outOfFuel
  | fuel + 1, idx, pre_tr_secs =>
    if idx < PySequence_Fast_GET_SIZE g.fast_now_timestamps then
      let idx := idx + 1
      if idx = PySequence_Fast_GET_SIZE g.fast_now_timestamps then
        .ok { g with
              fast_now_pre_transition_secs := g.fast_now_post_transition_secs
              fast_now_post_transition_secs := PY_LLONG_MAX
              fast_now_transition_index := idx }
      else
        match PySequence_Fast_GET_ITEM g.fast_now_timestamps idx with
        | none => .undefined
        | some post_tr_secs =>
          if post_tr_secs > secs then
            match PySequence_Fast_GET_ITEM g.fast_now_indexes idx with
            | none => .undefined
            | some tr_index =>
              match PySequence_Fast_GET_ITEM g.fast_now_tzinfos tr_index with
              | none => .undefined
              | some tzinfo =>
                .ok { g with
                      fast_now_pre_transition_secs := pre_tr_secs
                      fast_now_post_transition_secs := post_tr_secs
                      fast_now_transition_index := idx
                      fast_now_tzinfo := tzinfo }
          else scanLoop g secs fuel idx post_tr_secs
    else .ok g

/-- The guard of line 109: the cached window does not hold `secs`. -/
def isStale (g : Globals) (secs : Int) : Bool :=
  decide (secs ≥ g.fast_now_post_transition_secs) || decide (secs < g.fast_now_pre_transition_secs)

/-- The initial values of `idx` and `pre_tr_secs` chosen in lines 114-120. -/
def scanStart (g : Globals) (secs : Int) : Int × Int :=
  if secs ≥ g.fast_now_post_transition_secs then
    (g.fast_now_transition_index, g.fast_now_post_transition_secs)
  else
    (-1, PY_LLONG_MIN)

/-- Fuel that lets the loop started at `idx` run to its end. -/
def scanFuel (g : Globals) (idx : Int) : Nat :=
  (PySequence_Fast_GET_SIZE g.fast_now_timestamps - idx).toNat + 1

/-- The block "Update cached tzinfo if needed" of `fast_now_now`
(lines 108-147), for the clock reading `secs`. -/
def update_tzinfo (g : Globals) (secs : Int) : Outcome Globals :=
  if isStale g secs then
    scanLoop g secs (scanFuel g (scanStart g secs).1) (scanStart g secs).1 (scanStart g secs).2
  else .ok g

/-- Successive calls of `now`, as far as the statics go: the window update run
for each clock reading in turn. -/
def queries (g : Globals) : List Int → Outcome Globals
  | [] => .ok g
  | secs :: rest =>
    match update_tzinfo g secs with
    | .ok g' => queries g' rest
    | .undefined => .undefined
    | .outOfFuel => .outOfFuel

/-- The cached timezone after each of the successive calls, up to the first
call that fails. -/
def resolved (g : Globals) : List Int → List PyObject
  | [] => []
  | secs :: rest =>
    match update_tzinfo g secs with
    | .ok g' => g'.fast_now_tzinfo :: resolved g' rest
    | _ => []

/-- A clock reading is a `long long`. -/
def isLongLong (t : Int) : Prop := PY_LLONG_MIN ≤ t ∧ t ≤ PY_LLONG_MAX

instance (t : Int) : Decidable (isLongLong t) := by
  unfold isLongLong; infer_instance

/-- The statics left by a successful `init` with parsed tables. -/
def freshGlobals (cls : PyObject) (tzinfos : List PyObject) (timestamps indexes : List Int)
    (tzinfo : PyObject) : Globals :=
  { fast_now_class := cls
    fast_now_tzinfos := tzinfos
    fast_now_timestamps := timestamps
    fast_now_indexes := indexes
    fast_now_tzinfo := tzinfo
    fast_now_pre_transition_secs := PY_LLONG_MIN
    fast_now_post_transition_secs := PY_LLONG_MIN
    fast_now_transition_index := -1 }

/-! ## The scenario of the specification -/

/-- The descriptor `UTC` of the scenario. -/
def UTC : PyObject := .object 0

/-- The descriptor `UTC+1` of the scenario. -/
def UTC1 : PyObject := .object 1

/-- Arguments of the scenario: boundaries 1000 and 2000, indexes 1 and 0,
default index 0. -/
def scenarioArgs : InitArgs :=
  { cls := .type 0
    tzinfos := .iterable [UTC, UTC1]
    timestamps := .iterable [1000, 2000]
    indexes := .iterable [1, 0]
    default_index := 0 }

/-- Statics after `init` with the scenario's arguments. -/
def scenarioGlobals : Globals := freshGlobals (.type 0) [UTC, UTC1] [1000, 2000] [1, 0] UTC

/-- A second table over the same descriptors: boundaries 1000 and 2000,
indexes 0 and 1, default index 0. -/
def risingArgs : InitArgs :=
  { cls := .type 0
    tzinfos := .iterable [UTC, UTC1]
    timestamps := .iterable [1000, 2000]
    indexes := .iterable [0, 1]
    default_index := 0 }

/-- Statics after `init` with `risingArgs`. -/
def risingGlobals : Globals := freshGlobals (.type 0) [UTC, UTC1] [1000, 2000] [0, 1] UTC

/-- The scenario's statics with the window `[lo, hi)`, the cursor `idx` and the
cached descriptor `tz`. -/
def scenarioWindow (lo hi idx : Int) (tz : PyObject) : Globals :=
  { scenarioGlobals with
    fast_now_pre_transition_secs := lo
    fast_now_post_transition_secs := hi
    fast_now_transition_index := idx
    fast_now_tzinfo := tz }

/-- The statics written when the loop leaves through `idx == size`
(lines 125-127). -/
def exhaustedExit (g : Globals) : Globals :=
  { g with
    fast_now_pre_transition_secs := g.fast_now_post_transition_secs
    fast_now_post_transition_secs := PY_LLONG_MAX
    fast_now_transition_index := PySequence_Fast_GET_SIZE g.fast_now_timestamps }

/-- The statics written when the loop leaves through `post_tr_secs > secs`
(lines 134-140). -/
def foundExit (g : Globals) (idx pre_tr_secs post_tr_secs : Int) (tzinfo : PyObject) : Globals :=
  { g with
    fast_now_pre_transition_secs := pre_tr_secs
    fast_now_post_transition_secs := post_tr_secs
    fast_now_transition_index := idx
    fast_now_tzinfo := tzinfo }

/-- The descriptor read in lines 137-139 for table position `idx`:
`tzinfos[indexes[idx]]`, when both reads are inside their sequences. -/
def descriptorAt (g : Globals) (idx : Int) : Option PyObject :=
  match PySequence_Fast_GET_ITEM g.fast_now_indexes idx with
  | none => none
  | some tr_index => PySequence_Fast_GET_ITEM g.fast_now_tzinfos tr_index

/-- The outcome of the found-boundary exit at position `j`. -/
def foundOutcome (g : Globals) (j pre b : Int) : Outcome Globals :=
  match descriptorAt g j with
  | none => .undefined
  | some tzinfo => .ok (foundExit g j pre b tzinfo)

/-- Every position strictly between `lo` and `hi` holds a boundary that is not
later than `secs`. -/
def allPassed (g : Globals) (secs lo hi : Int) : Prop :=
  ∀ k, lo < k → k < hi → ∃ b, PySequence_Fast_GET_ITEM g.fast_now_timestamps k = some b ∧ b ≤ secs

/-- The transition table is strictly increasing. -/
def StrictlyIncreasing (timestamps : List Int) : Prop := List.Pairwise (fun a b => a < b) timestamps

instance (timestamps : List Int) : Decidable (StrictlyIncreasing timestamps) := by
  unfold StrictlyIncreasing; infer_instance

/-- The statics `g` are reached from the statics `g0` by finitely many calls of
`now`, each with a `long long` clock reading. -/
def Reachable (g0 g : Globals) : Prop :=
  ∃ qs : List Int, (∀ q ∈ qs, isLongLong q) ∧ queries g0 qs = .ok g

/-- The call `init` succeeds from `statics` and leaves the statics `g0`. -/
def InitOk (statics : Option Globals) (a : InitArgs) (g0 : Globals) : Prop :=
  fast_now_init statics a = .ok (some g0, .None)

instance (statics : Option Globals) (a : InitArgs) (g0 : Globals) :
    Decidable (InitOk statics a g0) := by
  unfold InitOk; infer_instance

/-- The window is in one of the three shapes the code produces: fresh after
`init`, left by the found-boundary exit, or left by the exhausted exit. -/
def WindowShape (g : Globals) : Prop :=
  (g.fast_now_transition_index = -1 ∧ g.fast_now_pre_transition_secs = PY_LLONG_MIN ∧
      g.fast_now_post_transition_secs = PY_LLONG_MIN) ∨
  (0 ≤ g.fast_now_transition_index ∧
      PySequence_Fast_GET_ITEM g.fast_now_timestamps g.fast_now_transition_index
        = some g.fast_now_post_transition_secs ∧
      descriptorAt g g.fast_now_transition_index = some g.fast_now_tzinfo ∧
      ((g.fast_now_transition_index = 0 ∧ g.fast_now_pre_transition_secs = PY_LLONG_MIN) ∨
        PySequence_Fast_GET_ITEM g.fast_now_timestamps (g.fast_now_transition_index - 1)
          = some g.fast_now_pre_transition_secs)) ∨
  (g.fast_now_transition_index = PySequence_Fast_GET_SIZE g.fast_now_timestamps ∧
      g.fast_now_post_transition_secs = PY_LLONG_MAX ∧
      (g.fast_now_pre_transition_secs = PY_LLONG_MIN ∨
        g.fast_now_pre_transition_secs ∈ g.fast_now_timestamps))

/-- The index table is as long as the boundary table and each of its entries
is a position of the descriptor table. -/
def IndexesValid (g : Globals) : Prop :=
  PySequence_Fast_GET_SIZE g.fast_now_indexes = PySequence_Fast_GET_SIZE g.fast_now_timestamps ∧
    ∀ ix ∈ g.fast_now_indexes, 0 ≤ ix ∧ ix < PySequence_Fast_GET_SIZE g.fast_now_tzinfos

instance (g : Globals) : Decidable (IndexesValid g) := by
  unfold IndexesValid; infer_instance

/-- Two values of the statics hold the same class and the same three tables. -/
def SameTables (g g' : Globals) : Prop :=
  g'.fast_now_class = g.fast_now_class ∧ g'.fast_now_tzinfos = g.fast_now_tzinfos ∧
    g'.fast_now_timestamps = g.fast_now_timestamps ∧ g'.fast_now_indexes = g.fast_now_indexes

/-- One of the checks of lines 29-52 rejects the arguments: the class is not a
type, one of the three tables cannot be iterated, or the boundary table and the
index table differ in length. -/
def InitViolation (a : InitArgs) : Prop :=
  PyType_Check a.cls = false ∨ PySequence_Fast a.tzinfos = none ∨
    PySequence_Fast a.timestamps = none ∨ PySequence_Fast a.indexes = none ∨
    (PySequence_Fast a.timestamps).map PySequence_Fast_GET_SIZE
      ≠ (PySequence_Fast a.indexes).map PySequence_Fast_GET_SIZE

instance (a : InitArgs) : Decidable (InitViolation a) := by
  unfold InitViolation; infer_instance

/-- The default index is a position of the descriptor table handed to `init`. -/
def DefaultInRange (a : InitArgs) : Prop :=
  ∃ tzinfos tzinfo, PySequence_Fast a.tzinfos = some tzinfos ∧
    PySequence_Fast_GET_ITEM tzinfos a.default_index = some tzinfo

/-- The scenario's arguments with a default index past the two descriptors. -/
def strayDefaultArgs : InitArgs :=
  { cls := .type 0
    tzinfos := .iterable [UTC, UTC1]
    timestamps := .iterable [1000, 2000]
    indexes := .iterable [1, 0]
    default_index := 2 }


/-! ## The calendar value built by `fast_now_now` -/

/-- The fields of `struct tm` read in lines 156-161. -/
structure Tm where
  tm_year : Int
  tm_mon : Int
  tm_mday : Int
  tm_hour : Int
  tm_min : Int
  tm_sec : Int
  deriving DecidableEq, Repr

/-- The bit pattern of a C `int`: its value modulo `2^32`. -/
def intBits (v : Int) : Nat := (v % 4294967296).toNat

/-- Storing a bit pattern in an `unsigned char`. -/
def toUChar (v : Nat) : Nat := v % 256

/-- The macro `Py_MIN(x, y)`, that is `((x) > (y)) ? (y) : (x)`. -/
def Py_MIN (x y : Int) : Int := if x > y then y else x

/-- The object `PyDateTime_DateTime` as far as `fast_now_now` writes it: the hash
code, the `hastzinfo` flag, the ten bytes of `data`, the `tzinfo` slot (`none`
while it is not written) and the `fold` byte. In `datetime.h` the bytes 0-1 hold
the year, 2 the month, 3 the day, 4 the hour, 5 the minute, 6 the second and 7-9
the microsecond. -/
structure PyDateTime_DateTime where
  hashcode : Int
  hastzinfo : Bool
  data : List Nat
  tzinfo : Option PyObject
  fold : Nat
  deriving DecidableEq, Repr

/-- The object `tp_alloc` hands out: zero-filled memory. -/
def zeroedDateTime : PyDateTime_DateTime :=
  { hashcode := 0, hastzinfo := false, data := List.replicate 10 0, tzinfo := none, fold := 0 }

/-- The macro `SET_YEAR(o, v)` (lines 87-88). -/
def SET_YEAR (o : PyDateTime_DateTime) (v : Int) : PyDateTime_DateTime :=
  let byte0 := toUChar ((intBits v &&& 0xff00) >>> 8)
  let byte1 := toUChar (intBits v &&& 0x00ff)
  { o with data := (o.data.set 0 byte0).set 1 byte1 }

/-- The macro `SET_MONTH(o, v)` (line 89); `PyDateTime_GET_MONTH(o)` is `data[2]`. -/
def SET_MONTH (o : PyDateTime_DateTime) (v : Int) : PyDateTime_DateTime :=
  { o with data := o.data.set 2 (toUChar (intBits v)) }

/-- The macro `SET_DAY(o, v)` (line 90); `PyDateTime_GET_DAY(o)` is `data[3]`. -/
def SET_DAY (o : PyDateTime_DateTime) (v : Int) : PyDateTime_DateTime :=
  { o with data := o.data.set 3 (toUChar (intBits v)) }

/-- The macro `DATE_SET_HOUR(o, v)` (line 91); `PyDateTime_DATE_GET_HOUR(o)` is
`data[4]`. -/
def DATE_SET_HOUR (o : PyDateTime_DateTime) (v : Int) : PyDateTime_DateTime :=
  { o with data := o.data.set 4 (toUChar (intBits v)) }

/-- The macro `DATE_SET_MINUTE(o, v)` (line 92); `PyDateTime_DATE_GET_MINUTE(o)` is
`data[5]`. -/
def DATE_SET_MINUTE (o : PyDateTime_DateTime) (v : Int) : PyDateTime_DateTime :=
  { o with data := o.data.set 5 (toUChar (intBits v)) }

/-- The macro `DATE_SET_SECOND(o, v)` (line 93); `PyDateTime_DATE_GET_SECOND(o)` is
`data[6]`. -/
def DATE_SET_SECOND (o : PyDateTime_DateTime) (v : Int) : PyDateTime_DateTime :=
  { o with data := o.data.set 6 (toUChar (intBits v)) }

/-- The macro `DATE_SET_MICROSECOND(o, v)` (lines 94-97). -/
def DATE_SET_MICROSECOND (o : PyDateTime_DateTime) (v : Int) : PyDateTime_DateTime :=
  let byte7 := toUChar ((intBits v &&& 0xff0000) >>> 16)
  let byte8 := toUChar ((intBits v &&& 0x00ff00) >>> 8)
  let byte9 := toUChar (intBits v &&& 0x0000ff)
  { o with data := ((o.data.set 7 byte7).set 8 byte8).set 9 byte9 }

/-- The macro `DATE_SET_FOLD(o, v)` (line 98). -/
def DATE_SET_FOLD (o : PyDateTime_DateTime) (v : Int) : PyDateTime_DateTime :=
  { o with fold := toUChar (intBits v) }

/-- Step 3 of `fast_now_now` (lines 164-185), "new_datetime_ex2()": the object
returned for the given fields and cached descriptor, `none` when `tp_alloc`
returns `NULL`. -/
def new_datetime_ex2 (fast_now_tzinfo : PyObject) (allocated : Bool)
    (year month day hour minute second usecond : Int) : Option PyDateTime_DateTime :=
  let fold : Int := 0
  let aware : Bool := fast_now_tzinfo != PyObject.Py_None
  if allocated then
    let dt := zeroedDateTime
    let dt := { dt with hastzinfo := aware }
    let dt := { dt with hashcode := -1 }
    let dt := SET_YEAR dt year
    let dt := SET_MONTH dt month
    let dt := SET_DAY dt day
    let dt := DATE_SET_HOUR dt hour
    let dt := DATE_SET_MINUTE dt minute
    let dt := DATE_SET_SECOND dt second
    let dt := DATE_SET_MICROSECOND dt usecond
    let dt := if aware then { dt with tzinfo := some fast_now_tzinfo } else dt
    some (DATE_SET_FOLD dt fold)
  else none

/-- What the platform answers during one call of `now`: the clock reading
`(secs, usecond)` of `_PyTime_AsTimevalTime_t` (`none` when it fails), the
conversion `_PyTime_localtime` (`none` when it fails), and whether `tp_alloc`
returns an object. -/
structure Platform where
  clock : Option (Int × Int)
  localtime : Int → Option Tm
  allocated : Bool

/-- The function `fast_now_now` (lines 78-186): the statics after the call and
the object returned, `none` for `NULL`. -/
def fast_now_now (g : Globals) (p : Platform) : Outcome (Globals × Option PyDateTime_DateTime) :=
  match p.clock with
  | none => .ok (g, none)
  | some (secs, usecond) =>
    match update_tzinfo g secs with
    | .undefined => .undefined
    | .outOfFuel => .outOfFuel
    | .ok g' =>
      match p.localtime secs with
      | none => .ok (g', none)
      | some tm =>
        let year := tm.tm_year + 1900
        let month := tm.tm_mon + 1
        let day := tm.tm_mday
        let hour := tm.tm_hour
        let minute := tm.tm_min
        let second := Py_MIN 59 tm.tm_sec
        .ok (g', new_datetime_ex2 g'.fast_now_tzinfo p.allocated
          year month day hour minute second usecond)

/-- A platform whose clock reads `(secs, usecond)`, whose local time is `tm` and
whose allocation succeeds. -/
def platformOf (secs usecond : Int) (tm : Tm) : Platform :=
  { clock := some (secs, usecond), localtime := fun _ => some tm, allocated := true }

/-- The local time 2001-09-09 01:46:40, with the seconds reported as 60. -/
def sampleTm : Tm :=
  { tm_year := 101, tm_mon := 8, tm_mday := 9, tm_hour := 1, tm_min := 46, tm_sec := 60 }


/-- Byte `i` of the `data` of a built object, as a number (0 past the end). -/
def byteAt (dt : PyDateTime_DateTime) (i : Nat) : Int := ((dt.data.getD i 0 : Nat) : Int)


/-- The clock readings of successive calls never go back. -/
def NonDecreasing (qs : List Int) : Prop := List.Pairwise (fun a b => a ≤ b) qs

instance (qs : List Int) : Decidable (NonDecreasing qs) := by
  unfold NonDecreasing; infer_instance

/-- Arguments with an empty transition table and the default descriptor `UTC+1`. -/
def emptyTableArgs : InitArgs :=
  { cls := .type 0
    tzinfos := .iterable [UTC, UTC1]
    timestamps := .iterable []
    indexes := .iterable []
    default_index := 1 }

/-- Statics after `init` with `emptyTableArgs`. -/
def emptyTableGlobals : Globals := freshGlobals (.type 0) [UTC, UTC1] [] [] UTC1


/-! ## The loop with a record of what it does -/

/-- What one run of the loop did: how many times the body was entered, and the
positions at which `fast_now_timestamps`, `fast_now_indexes` and
`fast_now_tzinfos` were read. -/
structure ScanLog where
  iterations : Nat
  timestampReads : List Int
  indexReads : List Int
  tzinfoReads : List Int
  deriving DecidableEq, Repr

/-- The loop `scanLoop` together with the record of its run. -/
def scanLoopLog (g : Globals) (secs : Int) : Nat → Int → Int → Outcome Globals × ScanLog
  | 0, _, _ => (.outOfFuel, ⟨0, [], [], []⟩)
  | fuel + 1, idx, pre_tr_secs =>
    if idx < PySequence_Fast_GET_SIZE g.fast_now_timestamps then
      let idx := idx + 1
      if idx = PySequence_Fast_GET_SIZE g.fast_now_timestamps then
        (.ok { g with
               fast_now_pre_transition_secs := g.fast_now_post_transition_secs
               fast_now_post_transition_secs := PY_LLONG_MAX
               fast_now_transition_index := idx }, ⟨1, [], [], []⟩)
      else
        match PySequence_Fast_GET_ITEM g.fast_now_timestamps idx with
        | none => (.undefined, ⟨1, [idx], [], []⟩)
        | some post_tr_secs =>
          if post_tr_secs > secs then
            match PySequence_Fast_GET_ITEM g.fast_now_indexes idx with
            | none => (.undefined, ⟨1, [idx], [idx], []⟩)
            | some tr_index =>
              match PySequence_Fast_GET_ITEM g.fast_now_tzinfos tr_index with
              | none => (.undefined, ⟨1, [idx], [idx], [tr_index]⟩)
              | some tzinfo =>
                (.ok { g with
                       fast_now_pre_transition_secs := pre_tr_secs
                       fast_now_post_transition_secs := post_tr_secs
                       fast_now_transition_index := idx
                       fast_now_tzinfo := tzinfo }, ⟨1, [idx], [idx], [tr_index]⟩)
          else
            let rest := scanLoopLog g secs fuel idx post_tr_secs
            (rest.1, ⟨rest.2.iterations + 1, idx :: rest.2.timestampReads, rest.2.indexReads,
              rest.2.tzinfoReads⟩)
    else (.ok g, ⟨0, [], [], []⟩)

/-- The window update run with fuel for `n + 1` iterations, `n` the table length,
together with the record of its loop. -/
def update_tzinfo_log (g : Globals) (secs : Int) : Outcome Globals × ScanLog :=
  if isStale g secs then
    scanLoopLog g secs (g.fast_now_timestamps.length + 1) (scanStart g secs).1 (scanStart g secs).2
  else (.ok g, ⟨0, [], [], []⟩)


/-! ## The call of `init` with its argument tuple -/

/-- Smallest `Py_ssize_t` (64 bits). -/
def PY_SSIZE_T_MIN : Int := -9223372036854775808

/-- Largest `Py_ssize_t` (64 bits). -/
def PY_SSIZE_T_MAX : Int := 9223372036854775807

/-- The fifth argument as the format unit `n` meets it: a Python integer of any
size, or an object that is no integer. -/
inductive IndexArg where
  | integer (value : Int)
  | notInteger
  deriving DecidableEq, Repr

/-- The argument tuple of a call of `init`: five objects, or a tuple of another
length. -/
inductive ArgTuple where
  | five (cls : PyObject) (tzinfos : SeqArg PyObject) (timestamps indexes : SeqArg Int)
      (default_index : IndexArg)
  | notFive
  deriving DecidableEq, Repr

/-- The call `PyArg_ParseTuple(args, "OOOOn", ...)` of line 25: it fills the five
locals when the tuple has five entries and the fifth is an integer that fits a
`Py_ssize_t`; `none` is its failure. -/
def PyArg_ParseTuple : ArgTuple → Option InitArgs
  | .five cls tzinfos timestamps indexes (.integer value) =>
    if PY_SSIZE_T_MIN ≤ value ∧ value ≤ PY_SSIZE_T_MAX then
      some { cls := cls, tzinfos := tzinfos, timestamps := timestamps, indexes := indexes,
             default_index := value }
    else none
  | .five _ _ _ _ .notInteger => none
  | .notFive => none

/-- The function `fast_now_init` as Python calls it (lines 16-76): the parse of
lines 25-27, then the rest of the function. -/
def fast_now_init_call (statics : Option Globals) (args : ArgTuple) :
    Outcome (Option Globals × PyResult) :=
  match PyArg_ParseTuple args with
  | none => .ok (statics, .raised .argumentsNotParsed)
  | some a => fast_now_init statics a

/-- The tuple of five arguments whose parse gives the locals `a`. -/
def tupleOf (a : InitArgs) : ArgTuple :=
  .five a.cls a.tzinfos a.timestamps a.indexes (.integer a.default_index)

/-- The tuple shows one of the violations the checks of lines 29-52 look for:
the class is not a type, a table cannot be iterated, or the boundary table and
the index table differ in length. -/
def ListedViolation : ArgTuple → Prop
  | .five cls tzinfos timestamps indexes _ =>
    InitViolation { cls := cls, tzinfos := tzinfos, timestamps := timestamps,
                    indexes := indexes, default_index := 0 }
  | .notFive => False

instance (args : ArgTuple) : Decidable (ListedViolation args) := by
  cases args <;> unfold ListedViolation <;> infer_instance

/-- The scenario's tuple with a fifth argument that is no integer. -/
def noIntegerTuple : ArgTuple :=
  .five (.type 0) (.iterable [UTC, UTC1]) (.iterable [1000, 2000]) (.iterable [1, 0]) .notInteger

/-- The scenario's tuple with the default index `2^63`, one past `Py_ssize_t`. -/
def hugeDefaultTuple : ArgTuple :=
  .five (.type 0) (.iterable [UTC, UTC1]) (.iterable [1000, 2000]) (.iterable [1, 0])
    (.integer 9223372036854775808)

/-! ## Basic facts -/

theorem getItem_some_iff {α : Type} (s : List α) (i : Int) (x : α) :
    PySequence_Fast_GET_ITEM s i = some x ↔
      0 ≤ i ∧ ∃ h : i.toNat < s.length, s.get ⟨i.toNat, h⟩ = x := by
  unfold PySequence_Fast_GET_ITEM
  by_cases h0 : 0 ≤ i
  · simp [h0, List.getElem?_eq_some]
  · simp [h0]

theorem getItem_bounds {α : Type} {s : List α} {i : Int} {x : α}
    (h : PySequence_Fast_GET_ITEM s i = some x) : 0 ≤ i ∧ i < PySequence_Fast_GET_SIZE s := by
  obtain ⟨h0, h1, _⟩ := (getItem_some_iff s i x).1 h
  refine ⟨h0, ?_⟩
  unfold PySequence_Fast_GET_SIZE
  omega

theorem getItem_mem {α : Type} {s : List α} {i : Int} {x : α}
    (h : PySequence_Fast_GET_ITEM s i = some x) : x ∈ s := by
  obtain ⟨_, h1, h2⟩ := (getItem_some_iff s i x).1 h
  rw [← h2]
  exact List.get_mem s _ _

theorem getItem_inRange {α : Type} (s : List α) (i : Int) (h0 : 0 ≤ i)
    (h1 : i < PySequence_Fast_GET_SIZE s) : ∃ x, PySequence_Fast_GET_ITEM s i = some x := by
  unfold PySequence_Fast_GET_SIZE at h1
  have h : i.toNat < s.length := by omega
  exact ⟨s.get ⟨i.toNat, h⟩, (getItem_some_iff s i _).2 ⟨h0, h, rfl⟩⟩

theorem size_nonneg {α : Type} (s : List α) : 0 ≤ PySequence_Fast_GET_SIZE s := by
  unfold PySequence_Fast_GET_SIZE
  omega

/-- How the loop ends, by cases on the table: not entered, exhausted, or left
at the first boundary later than `secs`. -/
theorem scanLoop_spec (g : Globals) (secs : Int) :
    ∀ (fuel : Nat) (idx pre_tr : Int), -1 ≤ idx →
      (PySequence_Fast_GET_SIZE g.fast_now_timestamps - idx).toNat < fuel →
      (PySequence_Fast_GET_SIZE g.fast_now_timestamps ≤ idx ∧
          scanLoop g secs fuel idx pre_tr = .ok g) ∨
      (idx < PySequence_Fast_GET_SIZE g.fast_now_timestamps ∧
          allPassed g secs idx (PySequence_Fast_GET_SIZE g.fast_now_timestamps) ∧
          scanLoop g secs fuel idx pre_tr = .ok (exhaustedExit g)) ∨
      (∃ j b pre, idx < j ∧ PySequence_Fast_GET_ITEM g.fast_now_timestamps j = some b ∧
          secs < b ∧ allPassed g secs idx j ∧
          ((j = idx + 1 ∧ pre = pre_tr) ∨
            (idx + 1 < j ∧ PySequence_Fast_GET_ITEM g.fast_now_timestamps (j - 1) = some pre)) ∧
          scanLoop g secs fuel idx pre_tr = foundOutcome g j pre b) := by
  intro fuel
  induction fuel with
  | zero => intro idx pre_tr _ h; omega
  | succ fuel ih =>
    intro idx pre_tr hidx hfuel
    by_cases hlt : idx < PySequence_Fast_GET_SIZE g.fast_now_timestamps
    · by_cases hend : idx + 1 = PySequence_Fast_GET_SIZE g.fast_now_timestamps
      · right; left
        refine ⟨hlt, ?_, ?_⟩
        · intro k hk1 hk2; omega
        · simp [scanLoop, hlt, hend, exhaustedExit]
      · obtain ⟨b, hb⟩ := getItem_inRange g.fast_now_timestamps (idx + 1) (by omega) (by omega)
        by_cases hgt : b > secs
        · right; right
          refine ⟨idx + 1, b, pre_tr, by omega, hb, hgt, ?_, Or.inl ⟨rfl, rfl⟩, ?_⟩
          · intro k hk1 hk2; omega
          · simp only [scanLoop, hlt, hend, hb, hgt, if_true, if_false, foundOutcome, descriptorAt,
              foundExit]
            cases PySequence_Fast_GET_ITEM g.fast_now_indexes (idx + 1) with
            | none => rfl
            | some ix =>
              cases PySequence_Fast_GET_ITEM g.fast_now_tzinfos ix <;> rfl
        · have hstep : scanLoop g secs (fuel + 1) idx pre_tr = scanLoop g secs fuel (idx + 1) b := by
            simp [scanLoop, hlt, hend, hb, hgt]
          have hpass : ∀ hi, allPassed g secs (idx + 1) hi → allPassed g secs idx hi := by
            intro hi hp k hk1 hk2
            by_cases hk : k = idx + 1
            · subst hk; exact ⟨b, hb, by omega⟩
            · exact hp k (by omega) hk2
          rcases ih (idx + 1) b (by omega) (by omega) with h | h | h
          · omega
          · right; left
            exact ⟨hlt, hpass _ h.2.1, by rw [hstep]; exact h.2.2⟩
          · right; right
            obtain ⟨j, b', pre, hj, hb', hsecs, hp, hpre, hres⟩ := h
            refine ⟨j, b', pre, by omega, hb', hsecs, hpass _ hp, Or.inr ?_, by rw [hstep]; exact hres⟩
            rcases hpre with ⟨hj1, hpre⟩ | ⟨hj1, hpre⟩
            · refine ⟨by omega, ?_⟩
              have : j - 1 = idx + 1 := by omega
              rw [this, hpre]; exact hb
            · exact ⟨by omega, hpre⟩
    · left
      exact ⟨by omega, by simp [scanLoop, hlt]⟩

theorem mem_getItem {α : Type} {s : List α} {x : α} (h : x ∈ s) :
    ∃ i, PySequence_Fast_GET_ITEM s i = some x := by
  obtain ⟨n, hn, hx⟩ := List.getElem_of_mem h
  refine ⟨(n : Int), (getItem_some_iff s n x).2 ⟨by omega, ?_⟩⟩
  simp only [Int.toNat_ofNat]
  exact ⟨hn, hx⟩

/-- How a window update ends: nothing to do, or one of the three ways the loop
ends, started where `scanStart` says. -/
theorem update_tzinfo_spec_of_start (g : Globals) (secs : Int)
    (hstart : -1 ≤ (scanStart g secs).1) :
    (isStale g secs = false ∧ update_tzinfo g secs = .ok g) ∨
    (isStale g secs = true ∧
      ((PySequence_Fast_GET_SIZE g.fast_now_timestamps ≤ (scanStart g secs).1 ∧
          update_tzinfo g secs = .ok g) ∨
       ((scanStart g secs).1 < PySequence_Fast_GET_SIZE g.fast_now_timestamps ∧
          allPassed g secs (scanStart g secs).1 (PySequence_Fast_GET_SIZE g.fast_now_timestamps) ∧
          update_tzinfo g secs = .ok (exhaustedExit g)) ∨
       (∃ j b pre, (scanStart g secs).1 < j ∧
          PySequence_Fast_GET_ITEM g.fast_now_timestamps j = some b ∧
          secs < b ∧ allPassed g secs (scanStart g secs).1 j ∧
          ((j = (scanStart g secs).1 + 1 ∧ pre = (scanStart g secs).2) ∨
            ((scanStart g secs).1 + 1 < j ∧
              PySequence_Fast_GET_ITEM g.fast_now_timestamps (j - 1) = some pre)) ∧
          update_tzinfo g secs = foundOutcome g j pre b))) := by
  by_cases hs : isStale g secs = true
  · right
    refine ⟨hs, ?_⟩
    have h := scanLoop_spec g secs (scanFuel g (scanStart g secs).1) (scanStart g secs).1
      (scanStart g secs).2 hstart (by unfold scanFuel; omega)
    simpa [update_tzinfo, hs] using h
  · left
    simp only [Bool.not_eq_true] at hs
    exact ⟨hs, by simp [update_tzinfo, hs]⟩

theorem scanStart_ge (g : Globals) (secs : Int) (hidx : -1 ≤ g.fast_now_transition_index) :
    -1 ≤ (scanStart g secs).1 := by
  unfold scanStart
  split <;> simp [hidx]

/-- The same case split, for statics whose cursor is at least `-1`. -/
theorem update_tzinfo_spec (g : Globals) (secs : Int) (hidx : -1 ≤ g.fast_now_transition_index) :
    (isStale g secs = false ∧ update_tzinfo g secs = .ok g) ∨
    (isStale g secs = true ∧
      ((PySequence_Fast_GET_SIZE g.fast_now_timestamps ≤ (scanStart g secs).1 ∧
          update_tzinfo g secs = .ok g) ∨
       ((scanStart g secs).1 < PySequence_Fast_GET_SIZE g.fast_now_timestamps ∧
          allPassed g secs (scanStart g secs).1 (PySequence_Fast_GET_SIZE g.fast_now_timestamps) ∧
          update_tzinfo g secs = .ok (exhaustedExit g)) ∨
       (∃ j b pre, (scanStart g secs).1 < j ∧
          PySequence_Fast_GET_ITEM g.fast_now_timestamps j = some b ∧
          secs < b ∧ allPassed g secs (scanStart g secs).1 j ∧
          ((j = (scanStart g secs).1 + 1 ∧ pre = (scanStart g secs).2) ∨
            ((scanStart g secs).1 + 1 < j ∧
              PySequence_Fast_GET_ITEM g.fast_now_timestamps (j - 1) = some pre)) ∧
          update_tzinfo g secs = foundOutcome g j pre b))) :=
  update_tzinfo_spec_of_start g secs (scanStart_ge g secs hidx)

theorem isStale_iff (g : Globals) (secs : Int) :
    isStale g secs = true ↔
      g.fast_now_post_transition_secs ≤ secs ∨ secs < g.fast_now_pre_transition_secs := by
  simp [isStale]

theorem scanStart_forward (g : Globals) (secs : Int) (h : g.fast_now_post_transition_secs ≤ secs) :
    scanStart g secs = (g.fast_now_transition_index, g.fast_now_post_transition_secs) := by
  simp [scanStart, h]

theorem scanStart_restart (g : Globals) (secs : Int) (h : secs < g.fast_now_post_transition_secs) :
    scanStart g secs = (-1, PY_LLONG_MIN) := by
  have : ¬ (secs ≥ g.fast_now_post_transition_secs) := by omega
  simp [scanStart, this]

theorem foundOutcome_ok {g g' : Globals} {j pre b : Int} (h : foundOutcome g j pre b = .ok g') :
    ∃ tz, descriptorAt g j = some tz ∧ g' = foundExit g j pre b tz := by
  unfold foundOutcome at h
  cases hd : descriptorAt g j with
  | none => simp [hd] at h
  | some tz =>
    simp only [hd, Outcome.ok.injEq] at h
    exact ⟨tz, rfl, h.symm⟩

theorem windowShape_index_ge (g : Globals) (h : WindowShape g) :
    -1 ≤ g.fast_now_transition_index := by
  have := size_nonneg g.fast_now_timestamps
  rcases h with h | h | h <;> omega

theorem sameTables_refl (g : Globals) : SameTables g g := ⟨rfl, rfl, rfl, rfl⟩

theorem sameTables_trans {g g' g'' : Globals} (h1 : SameTables g g') (h2 : SameTables g' g'') :
    SameTables g g'' := by
  obtain ⟨a1, a2, a3, a4⟩ := h1
  obtain ⟨b1, b2, b3, b4⟩ := h2
  exact ⟨b1.trans a1, b2.trans a2, b3.trans a3, b4.trans a4⟩

/-- A window update never touches the class or the tables. -/
theorem update_tzinfo_sameTables (g g' : Globals) (secs : Int)
    (hidx : -1 ≤ g.fast_now_transition_index) (h : update_tzinfo g secs = .ok g') :
    SameTables g g' := by
  rcases update_tzinfo_spec g secs hidx with ⟨_, h1⟩ | ⟨_, ⟨_, h1⟩ | ⟨_, _, h1⟩ | ⟨j, b, pre, _, _, _, _, _, h1⟩⟩
  · rw [h1] at h; cases h; exact sameTables_refl g
  · rw [h1] at h; cases h; exact sameTables_refl g
  · rw [h1] at h; cases h; exact ⟨rfl, rfl, rfl, rfl⟩
  · rw [h1] at h
    obtain ⟨tz, _, hg⟩ := foundOutcome_ok h
    subst hg
    exact ⟨rfl, rfl, rfl, rfl⟩

/-- The lower bound of a window in one of the three shapes is the sentinel or
a boundary of the table. -/
theorem windowShape_pre (g : Globals) (h : WindowShape g) :
    g.fast_now_pre_transition_secs = PY_LLONG_MIN ∨
      g.fast_now_pre_transition_secs ∈ g.fast_now_timestamps := by
  rcases h with h | h | h
  · exact Or.inl h.2.1
  · rcases h.2.2.2 with h' | h'
    · exact Or.inl h'.2
    · exact Or.inr (getItem_mem h')
  · exact h.2.2

/-- A restart of the scan from a window in one of the three shapes never
exhausts the table: the lower bound it jumped below is itself a boundary. -/
theorem restart_not_exhausted (g : Globals) (secs : Int) (hw : WindowShape g)
    (ht : PY_LLONG_MIN ≤ secs) (hlt : secs < g.fast_now_pre_transition_secs)
    (hp : allPassed g secs (-1) (PySequence_Fast_GET_SIZE g.fast_now_timestamps)) : False := by
  rcases windowShape_pre g hw with h | h
  · omega
  · obtain ⟨i, hi⟩ := mem_getItem h
    have hb := getItem_bounds hi
    obtain ⟨b, hb1, hb2⟩ := hp i (by omega) hb.2
    rw [hi] at hb1
    cases hb1
    omega

/-- The three window shapes are kept by every window update. -/
theorem update_tzinfo_shape (g g' : Globals) (secs : Int) (hw : WindowShape g)
    (ht : PY_LLONG_MIN ≤ secs) (h : update_tzinfo g secs = .ok g') : WindowShape g' := by
  have hidx := windowShape_index_ge g hw
  rcases update_tzinfo_spec g secs hidx with ⟨_, h1⟩ | ⟨hs, ⟨_, h1⟩ | ⟨hlt, hp, h1⟩ | ⟨j, b, pre, hj, hb, hsecs, hp, hpre, h1⟩⟩
  · rw [h1] at h; cases h; exact hw
  · rw [h1] at h; cases h; exact hw
  · rw [h1] at h; cases h
    right; right
    refine ⟨rfl, rfl, ?_⟩
    show g.fast_now_post_transition_secs = PY_LLONG_MIN ∨
      g.fast_now_post_transition_secs ∈ g.fast_now_timestamps
    by_cases hf : g.fast_now_post_transition_secs ≤ secs
    · rw [scanStart_forward g secs hf] at hlt
      simp only at hlt
      rcases hw with hw | hw | hw
      · exact Or.inl hw.2.2
      · exact Or.inr (getItem_mem hw.2.1)
      · omega
    · have hr : secs < g.fast_now_post_transition_secs := by omega
      rw [scanStart_restart g secs hr] at hp
      simp only at hp
      have hpre : secs < g.fast_now_pre_transition_secs := by
        rcases (isStale_iff g secs).1 hs with h' | h'
        · omega
        · exact h'
      exact (restart_not_exhausted g secs hw ht hpre hp).elim
  · rw [h1] at h
    obtain ⟨tz, htz, hg⟩ := foundOutcome_ok h
    subst hg
    have hjb := getItem_bounds hb
    right; left
    refine ⟨hjb.1, hb, htz, ?_⟩
    show (j = 0 ∧ pre = PY_LLONG_MIN) ∨
      PySequence_Fast_GET_ITEM g.fast_now_timestamps (j - 1) = some pre
    rcases hpre with ⟨hj1, hpre⟩ | ⟨_, hpre⟩
    · by_cases hf : g.fast_now_post_transition_secs ≤ secs
      · rw [scanStart_forward g secs hf] at hj1 hpre
        simp only at hj1 hpre
        rcases hw with hw | hw | hw
        · left; exact ⟨by omega, by rw [hpre]; exact hw.2.2⟩
        · right
          have : j - 1 = g.fast_now_transition_index := by omega
          rw [this, hpre]; exact hw.2.1
        · omega
      · have hr : secs < g.fast_now_post_transition_secs := by omega
        rw [scanStart_restart g secs hr] at hj1 hpre
        simp only at hj1 hpre
        left; exact ⟨by omega, hpre⟩
    · exact Or.inr hpre

theorem queries_ok_cons {g g' : Globals} {q : Int} {qs : List Int}
    (h : queries g (q :: qs) = .ok g') :
    ∃ g1, update_tzinfo g q = .ok g1 ∧ queries g1 qs = .ok g' := by
  simp only [queries] at h
  cases hu : update_tzinfo g q with
  | ok g1 => rw [hu] at h; exact ⟨g1, rfl, h⟩
  | undefined => rw [hu] at h; cases h
  | outOfFuel => rw [hu] at h; cases h

/-- Every reachable value of the statics has a window in one of the three
shapes and holds the tables it started with. -/
theorem reachable_shape (g0 g : Globals) (hw : WindowShape g0) (hr : Reachable g0 g) :
    WindowShape g ∧ SameTables g0 g := by
  obtain ⟨qs, hqs, hq⟩ := hr
  induction qs generalizing g0 with
  | nil =>
    simp only [queries, Outcome.ok.injEq] at hq
    subst hq
    exact ⟨hw, sameTables_refl _⟩
  | cons q qs ih =>
    obtain ⟨g1, hu, hrest⟩ := queries_ok_cons hq
    have hq1 : isLongLong q := hqs q (List.mem_cons_self _ _)
    have hw1 := update_tzinfo_shape g0 g1 q hw hq1.1 hu
    have ht1 := update_tzinfo_sameTables g0 g1 q (windowShape_index_ge g0 hw) hu
    obtain ⟨hwg, htg⟩ := ih g1 hw1 (fun x hx => hqs x (List.mem_cons_of_mem _ hx)) hrest
    exact ⟨hwg, sameTables_trans ht1 htg⟩

/-- What a successful `init` leaves in the statics. -/
theorem initOk_eq (statics : Option Globals) (a : InitArgs) (g0 : Globals)
    (h : InitOk statics a g0) :
    ∃ tzinfos timestamps indexes tzinfo,
      a.tzinfos = .iterable tzinfos ∧ a.timestamps = .iterable timestamps ∧
      a.indexes = .iterable indexes ∧
      PySequence_Fast_GET_SIZE timestamps = PySequence_Fast_GET_SIZE indexes ∧
      PySequence_Fast_GET_ITEM tzinfos a.default_index = some tzinfo ∧
      PyType_Check a.cls = true ∧
      g0 = freshGlobals a.cls tzinfos timestamps indexes tzinfo := by
  unfold InitOk fast_now_init at h
  split at h
  · simp at h
  · rename_i hc
    cases htz : a.tzinfos with
    | notIterable => simp [htz, PySequence_Fast] at h
    | iterable tzinfos =>
      cases hts : a.timestamps with
      | notIterable => simp [htz, hts, PySequence_Fast] at h
      | iterable timestamps =>
        cases hix : a.indexes with
        | notIterable => simp [htz, hts, hix, PySequence_Fast] at h
        | iterable indexes =>
          simp only [htz, hts, hix, PySequence_Fast] at h
          split at h
          · simp at h
          · rename_i hsz
            cases hd : PySequence_Fast_GET_ITEM tzinfos a.default_index with
            | none => simp [hd] at h
            | some tzinfo =>
              simp only [hd, Outcome.ok.injEq, Prod.mk.injEq, Option.some.injEq, and_true] at h
              refine ⟨tzinfos, timestamps, indexes, tzinfo, rfl, rfl, rfl, ?_, hd, ?_, ?_⟩
              · simpa using hsz
              · simpa using hc
              · rw [← h]; rfl

theorem initOk_shape (statics : Option Globals) (a : InitArgs) (g0 : Globals)
    (h : InitOk statics a g0) : WindowShape g0 := by
  obtain ⟨_, _, _, _, _, _, _, _, _, _, hg⟩ := initOk_eq statics a g0 h
  subst hg
  exact Or.inl ⟨rfl, rfl, rfl⟩

/-- After a window update the window holds the clock reading, unless the
reading is the largest `long long` and nothing was changed. -/
theorem update_tzinfo_covers (g g' : Globals) (secs : Int) (hw : WindowShape g)
    (ht : PY_LLONG_MIN ≤ secs) (h : update_tzinfo g secs = .ok g') :
    (g' = g ∧ PY_LLONG_MAX ≤ secs) ∨ (g'.fast_now_pre_transition_secs ≤ secs ∧
      (secs < g'.fast_now_post_transition_secs ∨ g'.fast_now_post_transition_secs = PY_LLONG_MAX)) := by
  have hidx := windowShape_index_ge g hw
  rcases update_tzinfo_spec g secs hidx with ⟨hs, h1⟩ | ⟨hs, ⟨hge, h1⟩ | ⟨hlt, hp, h1⟩ | ⟨j, b, pre, hj, hb, hsecs, hp, hpre, h1⟩⟩
  · rw [h1] at h; cases h
    right
    have hns : ¬ (g.fast_now_post_transition_secs ≤ secs ∨ secs < g.fast_now_pre_transition_secs) := by
      intro hc
      rw [(isStale_iff g secs).2 hc] at hs
      cases hs
    exact ⟨by omega, Or.inl (by omega)⟩
  · rw [h1] at h; cases h
    left
    refine ⟨rfl, ?_⟩
    have hsz := size_nonneg g.fast_now_timestamps
    by_cases hf : g.fast_now_post_transition_secs ≤ secs
    · rw [scanStart_forward g secs hf] at hge
      simp only at hge
      rcases hw with hw | hw | hw
      · omega
      · have := (getItem_bounds hw.2.1).2
        omega
      · omega
    · have hr : secs < g.fast_now_post_transition_secs := by omega
      rw [scanStart_restart g secs hr] at hge
      simp only at hge
      omega
  · rw [h1] at h; cases h
    right
    refine ⟨?_, Or.inr rfl⟩
    show g.fast_now_post_transition_secs ≤ secs
    by_cases hf : g.fast_now_post_transition_secs ≤ secs
    · exact hf
    · have hr : secs < g.fast_now_post_transition_secs := by omega
      rw [scanStart_restart g secs hr] at hp
      simp only at hp
      have hpre : secs < g.fast_now_pre_transition_secs := by
        rcases (isStale_iff g secs).1 hs with h' | h'
        · omega
        · exact h'
      exact (restart_not_exhausted g secs hw ht hpre hp).elim
  · rw [h1] at h
    obtain ⟨tz, htz, hg⟩ := foundOutcome_ok h
    subst hg
    right
    refine ⟨?_, Or.inl hsecs⟩
    show pre ≤ secs
    rcases hpre with ⟨hj1, hpre⟩ | ⟨hj1, hpre⟩
    · by_cases hf : g.fast_now_post_transition_secs ≤ secs
      · rw [scanStart_forward g secs hf] at hpre
        simp only at hpre
        omega
      · have hr : secs < g.fast_now_post_transition_secs := by omega
        rw [scanStart_restart g secs hr] at hpre
        simp only at hpre
        omega
    · obtain ⟨b', hb1, hb2⟩ := hp (j - 1) (by omega) (by omega)
      rw [hpre] at hb1
      cases hb1
      exact hb2

/-- The lower bound never exceeds the upper bound in a reachable window. -/
theorem reachable_ordered (g0 g : Globals) (hw : WindowShape g0)
    (ho : g0.fast_now_pre_transition_secs ≤ g0.fast_now_post_transition_secs)
    (hr : Reachable g0 g) :
    g.fast_now_pre_transition_secs ≤ g.fast_now_post_transition_secs := by
  obtain ⟨qs, hqs, hq⟩ := hr
  induction qs generalizing g0 with
  | nil =>
    simp only [queries, Outcome.ok.injEq] at hq
    subst hq
    exact ho
  | cons q qs ih =>
    obtain ⟨g1, hu, hrest⟩ := queries_ok_cons hq
    have hq1 : isLongLong q := hqs q (List.mem_cons_self _ _)
    have hw1 := update_tzinfo_shape g0 g1 q hw hq1.1 hu
    have ho1 : g1.fast_now_pre_transition_secs ≤ g1.fast_now_post_transition_secs := by
      rcases update_tzinfo_covers g0 g1 q hw hq1.1 hu with ⟨h, _⟩ | ⟨h1, h2 | h2⟩
      · rw [h]; exact ho
      · omega
      · have := hq1.2; omega
    exact ih g1 hw1 ho1 (fun x hx => hqs x (List.mem_cons_of_mem _ hx)) hrest

/-- In a strictly increasing table a later position holds a later boundary. -/
theorem strictlyIncreasing_getItem {ts : List Int} (hs : StrictlyIncreasing ts) {i j x y : Int}
    (hi : PySequence_Fast_GET_ITEM ts i = some x) (hj : PySequence_Fast_GET_ITEM ts j = some y)
    (hij : i < j) : x < y := by
  obtain ⟨hi0, hi1, hi2⟩ := (getItem_some_iff ts i x).1 hi
  obtain ⟨hj0, hj1, hj2⟩ := (getItem_some_iff ts j y).1 hj
  have h := (List.pairwise_iff_get.1 hs) ⟨i.toNat, hi1⟩ ⟨j.toNat, hj1⟩ (by
    show i.toNat < j.toNat
    omega)
  rw [hi2, hj2] at h
  exact h

theorem strictlyIncreasing_getItem_le {ts : List Int} (hs : StrictlyIncreasing ts) {i j x y : Int}
    (hi : PySequence_Fast_GET_ITEM ts i = some x) (hj : PySequence_Fast_GET_ITEM ts j = some y)
    (hij : i ≤ j) : x ≤ y := by
  by_cases h : i = j
  · subst h
    rw [hi] at hj
    cases hj
    exact le_refl _
  · exact le_of_lt (strictlyIncreasing_getItem hs hi hj (by omega))

/-- The first boundary later than `secs` after a starting point is unique. -/
theorem first_unique (g : Globals) (secs lo j j' b b' : Int)
    (hb : PySequence_Fast_GET_ITEM g.fast_now_timestamps j = some b) (hgt : secs < b)
    (hp : allPassed g secs lo j) (hj : lo < j)
    (hb' : PySequence_Fast_GET_ITEM g.fast_now_timestamps j' = some b') (hgt' : secs < b')
    (hp' : allPassed g secs lo j') (hj' : lo < j') : j = j' := by
  rcases lt_trichotomy j j' with h | h | h
  · obtain ⟨x, hx1, hx2⟩ := hp' j hj h
    rw [hb] at hx1
    cases hx1
    omega
  · exact h
  · obtain ⟨x, hx1, hx2⟩ := hp j' hj' h
    rw [hb'] at hx1
    cases hx1
    omega

theorem allPassed_congr {g g' : Globals} (h : g'.fast_now_timestamps = g.fast_now_timestamps)
    (secs lo hi : Int) : allPassed g' secs lo hi ↔ allPassed g secs lo hi := by
  unfold allPassed
  rw [h]

theorem foundOutcome_congr {g g' : Globals} (h : SameTables g g') (j pre b : Int) :
    foundOutcome g' j pre b = foundOutcome g j pre b := by
  obtain ⟨h1, h2, h3, h4⟩ := h
  cases g
  cases g'
  simp only at h1 h2 h3 h4
  subst h1 h2 h3 h4
  rfl

theorem indexesValid_descriptorAt (g : Globals) (hv : IndexesValid g) (j : Int) (h0 : 0 ≤ j)
    (h1 : j < PySequence_Fast_GET_SIZE g.fast_now_timestamps) :
    ∃ tz, descriptorAt g j = some tz := by
  obtain ⟨hsz, hall⟩ := hv
  obtain ⟨ix, hix⟩ := getItem_inRange g.fast_now_indexes j h0 (by omega)
  obtain ⟨hix0, hix1⟩ := hall ix (getItem_mem hix)
  obtain ⟨tz, htz⟩ := getItem_inRange g.fast_now_tzinfos ix hix0 hix1
  exact ⟨tz, by simp [descriptorAt, hix, htz]⟩

theorem indexesValid_congr {g g' : Globals} (h : SameTables g g') (hv : IndexesValid g) :
    IndexesValid g' := by
  obtain ⟨_, h2, h3, h4⟩ := h
  unfold IndexesValid
  rw [h2, h3, h4]
  exact hv

theorem initOk_ordered (statics : Option Globals) (a : InitArgs) (g0 : Globals)
    (h : InitOk statics a g0) :
    g0.fast_now_transition_index = -1 ∧ g0.fast_now_pre_transition_secs = PY_LLONG_MIN ∧
      g0.fast_now_post_transition_secs = PY_LLONG_MIN := by
  obtain ⟨_, _, _, _, _, _, _, _, _, _, hg⟩ := initOk_eq statics a g0 h
  subst hg
  exact ⟨rfl, rfl, rfl⟩

/-- A restart of the scan, from a window in one of the three shapes, leaves
through the found-boundary exit. -/
theorem restart_found (g : Globals) (secs : Int) (hw : WindowShape g)
    (ht : PY_LLONG_MIN ≤ secs) (hlt : secs < g.fast_now_pre_transition_secs)
    (hpost : secs < g.fast_now_post_transition_secs) :
    ∃ j b pre, 0 ≤ j ∧ PySequence_Fast_GET_ITEM g.fast_now_timestamps j = some b ∧ secs < b ∧
      allPassed g secs (-1) j ∧
      ((j = 0 ∧ pre = PY_LLONG_MIN) ∨
        (0 < j ∧ PySequence_Fast_GET_ITEM g.fast_now_timestamps (j - 1) = some pre)) ∧
      update_tzinfo g secs = foundOutcome g j pre b := by
  have hidx := windowShape_index_ge g hw
  have hsz := size_nonneg g.fast_now_timestamps
  have hstart := scanStart_restart g secs hpost
  rcases update_tzinfo_spec g secs hidx with ⟨hs, _⟩ | ⟨hs, ⟨h1, _⟩ | ⟨_, hp, _⟩ | ⟨j, b, pre, hj, hb, hsecs, hp, hpre, h1⟩⟩
  · have := (isStale_iff g secs).2 (Or.inr hlt)
    rw [this] at hs
    cases hs
  · rw [hstart] at h1
    simp only at h1
    omega
  · rw [hstart] at hp
    simp only at hp
    exact (restart_not_exhausted g secs hw ht hlt hp).elim
  · rw [hstart] at hj hp hpre
    simp only at hj hp hpre
    refine ⟨j, b, pre, by omega, hb, hsecs, hp, ?_, h1⟩
    rcases hpre with ⟨h, h'⟩ | ⟨h, h'⟩
    · exact Or.inl ⟨by omega, h'⟩
    · exact Or.inr ⟨by omega, h'⟩

/-- The first call after `init`, by cases on the table. -/
theorem fresh_spec (g0 : Globals) (secs : Int) (hidx : g0.fast_now_transition_index = -1)
    (hpost : g0.fast_now_post_transition_secs = PY_LLONG_MIN) (ht : PY_LLONG_MIN ≤ secs) :
    isStale g0 secs = true ∧ scanStart g0 secs = (-1, PY_LLONG_MIN) ∧
    ((allPassed g0 secs (-1) (PySequence_Fast_GET_SIZE g0.fast_now_timestamps) ∧
        update_tzinfo g0 secs = .ok (exhaustedExit g0)) ∨
     (∃ j b pre, 0 ≤ j ∧ PySequence_Fast_GET_ITEM g0.fast_now_timestamps j = some b ∧ secs < b ∧
        allPassed g0 secs (-1) j ∧
        ((j = 0 ∧ pre = PY_LLONG_MIN) ∨
          (0 < j ∧ PySequence_Fast_GET_ITEM g0.fast_now_timestamps (j - 1) = some pre)) ∧
        update_tzinfo g0 secs = foundOutcome g0 j pre b)) := by
  have hsz := size_nonneg g0.fast_now_timestamps
  have hf : g0.fast_now_post_transition_secs ≤ secs := by omega
  have hstale := (isStale_iff g0 secs).2 (Or.inl hf)
  have hstart : scanStart g0 secs = (-1, PY_LLONG_MIN) := by
    rw [scanStart_forward g0 secs hf, hidx, hpost]
  refine ⟨hstale, hstart, ?_⟩
  rcases update_tzinfo_spec g0 secs (by omega) with ⟨hs, _⟩ | ⟨_, ⟨h1, _⟩ | ⟨_, hp, h1⟩ | ⟨j, b, pre, hj, hb, hsecs, hp, hpre, h1⟩⟩
  · rw [hstale] at hs
    cases hs
  · rw [hstart] at h1
    simp only at h1
    omega
  · rw [hstart] at hp
    exact Or.inl ⟨hp, h1⟩
  · rw [hstart] at hj hp hpre
    simp only at hj hp hpre
    refine Or.inr ⟨j, b, pre, by omega, hb, hsecs, hp, ?_, h1⟩
    rcases hpre with ⟨h, h'⟩ | ⟨h, h'⟩
    · exact Or.inl ⟨by omega, h'⟩
    · exact Or.inr ⟨by omega, h'⟩

theorem descriptorAt_congr {g g' : Globals} (h : SameTables g g') (j : Int) :
    descriptorAt g' j = descriptorAt g j := by
  obtain ⟨_, h2, _, h4⟩ := h
  unfold descriptorAt
  rw [h2, h4]

/-! ## The claims -/

/-- C1 (the code breaks it): with the scenario's table, after the calls at 500
and 2500 the window is `[1000, LLONG_MAX)` and still caches `UTC+1`, the
descriptor of position 0. The instant 1500 lies in that window and between the
boundaries at positions 0 and 1, so the Active Window invariant asks for
`descriptors[indexes[1]] = UTC`; a call at 1500 keeps `UTC+1`, while the same call
made right after `init` resolves `UTC`. -/
theorem C1_active_window_violated :
    InitOk none scenarioArgs scenarioGlobals ∧
    StrictlyIncreasing scenarioGlobals.fast_now_timestamps ∧
    ∃ g, queries scenarioGlobals [500, 2500] = .ok g ∧
      g.fast_now_pre_transition_secs ≤ 1500 ∧ 1500 < g.fast_now_post_transition_secs ∧
      PySequence_Fast_GET_ITEM g.fast_now_timestamps 0 = some 1000 ∧
      PySequence_Fast_GET_ITEM g.fast_now_timestamps 1 = some 2000 ∧
      descriptorAt g 1 = some UTC ∧
      g.fast_now_tzinfo = UTC1 ∧
      resolved g [1500] = [UTC1] ∧
      resolved scenarioGlobals [1500] = [UTC] :=
  ⟨by decide, by decide, scenarioWindow 1000 PY_LLONG_MAX 2 UTC1, by decide, by decide, by decide,
    by decide, by decide, by decide, by decide, by decide, by decide⟩

/-- C2 as stated fails: the four calls of the scenario do not resolve `UTC`,
`UTC+1`, `UTC`, `UTC`. -/
theorem C2_scenario_counterexample :
    InitOk none scenarioArgs scenarioGlobals ∧
    resolved scenarioGlobals [500, 1500, 2500, 3000] ≠ [UTC, UTC1, UTC, UTC] :=
  ⟨by decide, by decide⟩

/-- C2 (amended): after `init` with boundaries 1000 and 2000, indexes 1 and 0,
default index 0 and descriptors `UTC`, `UTC+1`, the calls at 500, 1500, 2500 and
3000 resolve `UTC+1`, `UTC`, `UTC` and `UTC`. -/
theorem C2_scenario :
    InitOk none scenarioArgs scenarioGlobals ∧
    resolved scenarioGlobals [500, 1500, 2500, 3000] = [UTC1, UTC, UTC, UTC] :=
  ⟨by decide, by decide⟩

/-- C3: in every state reachable from a successful `init`, a call at a
`long long` instant `t` below the lower bound is stale, restarts the scan with
cursor `-1` and lower candidate `LLONG_MIN`, and has the very outcome of the same
call made right after `init`; with valid indexes that outcome is a new state. -/
theorem C3_backward_jump_is_fresh_start (statics : Option Globals) (a : InitArgs)
    (g0 g : Globals) (t : Int) (hinit : InitOk statics a g0) (hr : Reachable g0 g)
    (ht : isLongLong t) (hlt : t < g.fast_now_pre_transition_secs) :
    isStale g t = true ∧ scanStart g t = (-1, PY_LLONG_MIN) ∧
      update_tzinfo g t = update_tzinfo g0 t ∧
      (IndexesValid g0 → ∃ g', update_tzinfo g t = .ok g') := by
  have hw0 := initOk_shape statics a g0 hinit
  obtain ⟨hi0, hpre0, hpost0⟩ := initOk_ordered statics a g0 hinit
  obtain ⟨hw, hst⟩ := reachable_shape g0 g hw0 hr
  have ho := reachable_ordered g0 g hw0 (by omega) hr
  have hpost : t < g.fast_now_post_transition_secs := by omega
  obtain ⟨j, b, pre, hj0, hb, hsecs, hp, hpre, hres⟩ := restart_found g t hw ht.1 hlt hpost
  have hts : g.fast_now_timestamps = g0.fast_now_timestamps := hst.2.2.1
  refine ⟨(isStale_iff g t).2 (Or.inr hlt), scanStart_restart g t hpost, ?_, ?_⟩
  · obtain ⟨_, _, hcase⟩ := fresh_spec g0 t hi0 hpost0 ht.1
    rcases hcase with ⟨hp0, _⟩ | ⟨j', b', pre', hj0', hb', hsecs', hp', hpre', hres'⟩
    · have hbj := getItem_bounds hb
      rw [hts] at hb hbj
      obtain ⟨x, hx1, hx2⟩ := hp0 j (by omega) hbj.2
      rw [hb] at hx1
      cases hx1
      omega
    · rw [← hts] at hb' hpre'
      have hp'' := (allPassed_congr hts t (-1) j').2 hp'
      have hjj := first_unique g t (-1) j j' b b' hb hsecs hp (by omega) hb' hsecs' hp'' (by omega)
      subst hjj
      rw [hb] at hb'
      cases hb'
      have hpp : pre = pre' := by
        rcases hpre with ⟨h1, h2⟩ | ⟨h1, h2⟩ <;> rcases hpre' with ⟨h3, h4⟩ | ⟨h3, h4⟩
        · rw [h2, h4]
        · omega
        · omega
        · rw [h2] at h4
          cases h4
          rfl
      subst hpp
      rw [hres, hres']
      exact foundOutcome_congr hst j pre b
  · intro hv
    have hv' := indexesValid_congr hst hv
    obtain ⟨tz, htz⟩ := indexesValid_descriptorAt g hv' j hj0 (getItem_bounds hb).2
    exact ⟨foundExit g j pre b tz, by rw [hres]; simp [foundOutcome, htz]⟩

/-- C3 at the scenario: after the calls at 500, 1500 and 2500 the window is
`[2000, LLONG_MAX)`, and a call at 700 is a backward jump. -/
theorem C3_backward_jump_is_fresh_start_witness :
    isStale (scenarioWindow 2000 PY_LLONG_MAX 2 UTC) 700 = true ∧
      scanStart (scenarioWindow 2000 PY_LLONG_MAX 2 UTC) 700 = (-1, PY_LLONG_MIN) ∧
      update_tzinfo (scenarioWindow 2000 PY_LLONG_MAX 2 UTC) 700
        = update_tzinfo scenarioGlobals 700 ∧
      (IndexesValid scenarioGlobals →
        ∃ g', update_tzinfo (scenarioWindow 2000 PY_LLONG_MAX 2 UTC) 700 = .ok g') :=
  C3_backward_jump_is_fresh_start none scenarioArgs scenarioGlobals
    (scenarioWindow 2000 PY_LLONG_MAX 2 UTC) 700 (by decide)
    ⟨[500, 1500, 2500], by decide, by decide⟩ (by decide) (by decide)

/-- C4 as stated fails: with the scenario's table no boundary lies in
`[500, 1000)`, yet the call at 1000 resolves `UTC` after the call at 500 resolved
`UTC+1`. -/
theorem C4_stability_counterexample :
    InitOk none scenarioArgs scenarioGlobals ∧
    StrictlyIncreasing scenarioGlobals.fast_now_timestamps ∧
    (∀ b ∈ scenarioGlobals.fast_now_timestamps, ¬ ((500 : Int) ≤ b ∧ b < 1000)) ∧
    ∃ g1 g2, update_tzinfo scenarioGlobals 500 = .ok g1 ∧ update_tzinfo g1 1000 = .ok g2 ∧
      g2.fast_now_tzinfo ≠ g1.fast_now_tzinfo :=
  ⟨by decide, by decide, by decide, scenarioWindow PY_LLONG_MIN 1000 0 UTC1,
    scenarioWindow 1000 2000 1 UTC, by decide, by decide, by decide⟩

/-- C4 (amended): in every state reachable from a successful `init`, for
`long long` instants `t1 < t2` queried one after the other, if no boundary `b`
of the table satisfies `t1 < b ≤ t2`, the call at `t2` returns and caches the
timezone cached after the call at `t1`. -/
theorem C4_stability_between_boundaries (statics : Option Globals) (a : InitArgs)
    (g0 g g1 : Globals) (t1 t2 : Int) (hinit : InitOk statics a g0) (hr : Reachable g0 g)
    (h1 : isLongLong t1) (h2 : isLongLong t2) (hlt : t1 < t2)
    (hu : update_tzinfo g t1 = .ok g1)
    (hno : ∀ b ∈ g0.fast_now_timestamps, ¬ (t1 < b ∧ b ≤ t2)) :
    ∃ g2, update_tzinfo g1 t2 = .ok g2 ∧ g2.fast_now_tzinfo = g1.fast_now_tzinfo := by
  have hw0 := initOk_shape statics a g0 hinit
  obtain ⟨hw, hst⟩ := reachable_shape g0 g hw0 hr
  have hw1 := update_tzinfo_shape g g1 t1 hw h1.1 hu
  have hst1 := update_tzinfo_sameTables g g1 t1 (windowShape_index_ge g hw) hu
  have hts : g1.fast_now_timestamps = g0.fast_now_timestamps := (sameTables_trans hst hst1).2.2.1
  have h2max := h2.2
  have hcov : g1.fast_now_pre_transition_secs ≤ t1 ∧ t1 < g1.fast_now_post_transition_secs := by
    rcases update_tzinfo_covers g g1 t1 hw h1.1 hu with ⟨_, h⟩ | ⟨h, h' | h'⟩
    · omega
    · exact ⟨h, h'⟩
    · exact ⟨h, by omega⟩
  have hidx1 := windowShape_index_ge g1 hw1
  have hkey : ∀ j : Int, g1.fast_now_transition_index < j →
      j ≤ PySequence_Fast_GET_SIZE g1.fast_now_timestamps →
      g1.fast_now_post_transition_secs ≤ t2 → False := by
    intro j hj hjs hf
    rcases hw1 with hs | hs | hs
    · have := h1.1
      omega
    · have hmem := getItem_mem hs.2.1
      rw [hts] at hmem
      exact hno _ hmem ⟨hcov.2, hf⟩
    · omega
  rcases update_tzinfo_spec g1 t2 hidx1 with ⟨_, hres⟩ | ⟨hs, ⟨_, hres⟩ | ⟨hlt', _, _⟩ | ⟨j, b, pre, hj, hb, _, _, _, _⟩⟩
  · exact ⟨g1, hres, rfl⟩
  · exact ⟨g1, hres, rfl⟩
  · have hf : g1.fast_now_post_transition_secs ≤ t2 := by
      rcases (isStale_iff g1 t2).1 hs with h | h
      · exact h
      · omega
    rw [scanStart_forward g1 t2 hf] at hlt'
    simp only at hlt'
    exact (hkey _ hlt' (le_refl _) hf).elim
  · have hf : g1.fast_now_post_transition_secs ≤ t2 := by
      rcases (isStale_iff g1 t2).1 hs with h | h
      · exact h
      · omega
    rw [scanStart_forward g1 t2 hf] at hj
    simp only at hj
    exact (hkey j hj (le_of_lt (getItem_bounds hb).2) hf).elim

/-- C4 (amended) at the scenario: the calls at 500 and 999, with no boundary
in `(500, 999]`. -/
theorem C4_stability_between_boundaries_witness :
    ∃ g2, update_tzinfo (scenarioWindow PY_LLONG_MIN 1000 0 UTC1) 999 = .ok g2 ∧
      g2.fast_now_tzinfo = (scenarioWindow PY_LLONG_MIN 1000 0 UTC1).fast_now_tzinfo :=
  C4_stability_between_boundaries none scenarioArgs scenarioGlobals scenarioGlobals
    (scenarioWindow PY_LLONG_MIN 1000 0 UTC1) 500 999 (by decide) ⟨[], by decide, by decide⟩
    (by decide) (by decide) (by decide) (by decide) (by decide)

/-- C5 as stated fails: with boundaries 1000 and 2000, indexes 0 and 1 and
default index 0, the first call after `init`, at 3000, leaves the default `UTC`
cached and not `descriptors[indexes[1]] = UTC+1`. -/
theorem C5_beyond_table_counterexample :
    InitOk none risingArgs risingGlobals ∧
    StrictlyIncreasing risingGlobals.fast_now_timestamps ∧
    PySequence_Fast_GET_ITEM risingGlobals.fast_now_timestamps 1 = some 2000 ∧
    descriptorAt risingGlobals 1 = some UTC1 ∧
    resolved risingGlobals [3000] = [UTC] ∧ UTC ≠ UTC1 :=
  ⟨by decide, by decide, by decide, by decide, by decide, by decide⟩

/-- C5 (amended): for a non-empty strictly increasing table whose last
boundary is `last`, a call at a `long long` instant `t ≥ last`, made in any state
reachable from a successful `init`, returns and leaves the cached timezone as it
was before the call. -/
theorem C5_beyond_table_keeps_timezone (statics : Option Globals) (a : InitArgs)
    (g0 g : Globals) (t last : Int) (hinit : InitOk statics a g0) (hr : Reachable g0 g)
    (hs : StrictlyIncreasing g0.fast_now_timestamps)
    (hlast : PySequence_Fast_GET_ITEM g0.fast_now_timestamps
      (PySequence_Fast_GET_SIZE g0.fast_now_timestamps - 1) = some last)
    (hge : last ≤ t) :
    ∃ g', update_tzinfo g t = .ok g' ∧ g'.fast_now_tzinfo = g.fast_now_tzinfo := by
  have hw0 := initOk_shape statics a g0 hinit
  obtain ⟨hw, hst⟩ := reachable_shape g0 g hw0 hr
  have hts : g.fast_now_timestamps = g0.fast_now_timestamps := hst.2.2.1
  rcases update_tzinfo_spec g t (windowShape_index_ge g hw) with ⟨_, hres⟩ | ⟨_, ⟨_, hres⟩ | ⟨_, _, hres⟩ | ⟨j, b, pre, _, hb, hsecs, _, _, _⟩⟩
  · exact ⟨g, hres, rfl⟩
  · exact ⟨g, hres, rfl⟩
  · exact ⟨exhaustedExit g, hres, rfl⟩
  · rw [hts] at hb
    have hjb := (getItem_bounds hb).2
    have := strictlyIncreasing_getItem_le hs hb hlast (by omega)
    omega

/-- C5 (amended) at the scenario: the first call after `init`, at 2000, the
last boundary. -/
theorem C5_beyond_table_keeps_timezone_witness :
    ∃ g', update_tzinfo scenarioGlobals 2000 = .ok g' ∧
      g'.fast_now_tzinfo = scenarioGlobals.fast_now_tzinfo :=
  C5_beyond_table_keeps_timezone none scenarioArgs scenarioGlobals scenarioGlobals 2000 2000
    (by decide) ⟨[], by decide, by decide⟩ (by decide) (by decide) (by decide)

/-- C6 as stated fails: in the scenario the first call after `init`, at 500,
is before the first boundary and resolves `UTC+1`, not the default
`descriptors[0] = UTC`. -/
theorem C6_default_counterexample :
    InitOk none scenarioArgs scenarioGlobals ∧
    StrictlyIncreasing scenarioGlobals.fast_now_timestamps ∧
    PySequence_Fast_GET_ITEM scenarioGlobals.fast_now_timestamps 0 = some 1000 ∧
    PySequence_Fast_GET_ITEM scenarioGlobals.fast_now_tzinfos scenarioArgs.default_index = some UTC ∧
    resolved scenarioGlobals [500] = [UTC1] ∧ UTC1 ≠ UTC :=
  ⟨by decide, by decide, by decide, by decide, by decide, by decide⟩

/-- C6 (amended): for a non-empty strictly increasing table with first boundary
`b0` and a `long long` instant `t < b0`, a call at `t` made in a state reachable
from a successful `init` (the state right after `init` included) returns and
caches `descriptors[indexes[0]]`, unless the window of that state was left by
an exhausted scan and already holds `t`. -/
theorem C6_before_first_boundary (statics : Option Globals) (a : InitArgs)
    (g0 g : Globals) (t b0 : Int) (d : PyObject) (hinit : InitOk statics a g0)
    (hr : Reachable g0 g) (hs : StrictlyIncreasing g0.fast_now_timestamps)
    (hb0 : PySequence_Fast_GET_ITEM g0.fast_now_timestamps 0 = some b0) (hlt : t < b0)
    (ht : isLongLong t) (hd : descriptorAt g0 0 = some d)
    (hwin : ¬ (g.fast_now_transition_index = PySequence_Fast_GET_SIZE g.fast_now_timestamps ∧
      g.fast_now_pre_transition_secs ≤ t)) :
    ∃ g', update_tzinfo g t = .ok g' ∧ g'.fast_now_tzinfo = d := by
  have hw0 := initOk_shape statics a g0 hinit
  obtain ⟨hi0, hpre0, hpost0⟩ := initOk_ordered statics a g0 hinit
  obtain ⟨hw, hst⟩ := reachable_shape g0 g hw0 hr
  have ho := reachable_ordered g0 g hw0 (by omega) hr
  have hts : g.fast_now_timestamps = g0.fast_now_timestamps := hst.2.2.1
  rw [← hts] at hb0 hs
  rw [← descriptorAt_congr hst 0] at hd
  have hsz := (getItem_bounds hb0).2
  have htmin := ht.1
  -- a boundary of the table is later than `t`
  have hlater : ∀ (k x : Int), PySequence_Fast_GET_ITEM g.fast_now_timestamps k = some x → t < x := by
    intro k x hk
    have := strictlyIncreasing_getItem_le hs hb0 hk (getItem_bounds hk).1
    omega
  -- the first boundary later than `t` after `-1` is at position 0
  have hzero : ∀ j : Int, -1 < j → allPassed g t (-1) j → j = 0 := by
    intro j hj hp
    by_contra hne
    obtain ⟨x, hx1, hx2⟩ := hp 0 (by omega) (by omega)
    have := hlater 0 x hx1
    omega
  have hfound : ∀ pre b : Int, ∃ g', foundOutcome g 0 pre b = .ok g' ∧ g'.fast_now_tzinfo = d := by
    intro pre b
    exact ⟨foundExit g 0 pre b d, by simp [foundOutcome, hd], rfl⟩
  rcases update_tzinfo_spec g t (windowShape_index_ge g hw) with ⟨hns, hres⟩ | ⟨hstale, ⟨hge, hres⟩ | ⟨hlt', hp, hres⟩ | ⟨j, b, pre, hj, hb, hsecs, hp, hpre, hres⟩⟩
  · -- the window already holds `t`
    have hin : ¬ (g.fast_now_post_transition_secs ≤ t ∨ t < g.fast_now_pre_transition_secs) := by
      intro hc
      rw [(isStale_iff g t).2 hc] at hns
      cases hns
    refine ⟨g, hres, ?_⟩
    rcases hw with hf | hf | hf
    · omega
    · rcases hf.2.2.2 with ⟨hc, _⟩ | hprev
      · rw [hc, hd] at hf
        exact (Option.some.inj hf.2.2.1).symm
      · have := hlater _ _ hprev
        omega
    · exact (hwin ⟨hf.1, by omega⟩).elim
  · -- the loop is not entered
    by_cases hf : g.fast_now_post_transition_secs ≤ t
    · rw [scanStart_forward g t hf] at hge
      simp only at hge
      rcases hw with hf' | hf' | hf'
      · omega
      · have := (getItem_bounds hf'.2.1).2
        omega
      · exact (hwin ⟨hf'.1, by omega⟩).elim
    · rw [scanStart_restart g t (by omega)] at hge
      simp only at hge
      omega
  · -- the table cannot be exhausted
    exfalso
    by_cases hf : g.fast_now_post_transition_secs ≤ t
    · rw [scanStart_forward g t hf] at hlt' hp
      simp only at hlt' hp
      rcases hw with hf' | hf' | hf'
      · rw [hf'.1] at hp
        obtain ⟨x, hx1, hx2⟩ := hp 0 (by omega) hsz
        have := hlater 0 x hx1
        omega
      · have := hlater _ _ hf'.2.1
        omega
      · omega
    · have hpre : t < g.fast_now_pre_transition_secs := by
        rcases (isStale_iff g t).1 hstale with h' | h'
        · omega
        · exact h'
      rw [scanStart_restart g t (by omega)] at hp
      simp only at hp
      exact restart_not_exhausted g t hw htmin hpre hp
  · -- the loop leaves at position 0
    have hj0 : j = 0 := by
      by_cases hf : g.fast_now_post_transition_secs ≤ t
      · rw [scanStart_forward g t hf] at hj hp
        simp only at hj hp
        rcases hw with hf' | hf' | hf'
        · rw [hf'.1] at hj hp
          exact hzero j hj hp
        · have := hlater _ _ hf'.2.1
          omega
        · have := (getItem_bounds hb).2
          omega
      · rw [scanStart_restart g t (by omega)] at hj hp
        simp only at hj hp
        exact hzero j hj hp
    subst hj0
    rw [hres]
    exact hfound pre b

/-- C6 (amended) at the scenario: the first call after `init`, at 500, caches
`UTC+1`. -/
theorem C6_before_first_boundary_witness :
    ∃ g', update_tzinfo scenarioGlobals 500 = .ok g' ∧ g'.fast_now_tzinfo = UTC1 :=
  C6_before_first_boundary none scenarioArgs scenarioGlobals scenarioGlobals 500 1000 UTC1
    (by decide) ⟨[], by decide, by decide⟩ (by decide) (by decide) (by decide) (by decide)
    (by decide) (by decide)

/-- C7: for any statics and any stale call at `t`, if `j` is the first position
after the scan's starting point whose boundary `b` is later than `t` (every
position scanned before it holds a boundary not later than `t`) and
`descriptors[indexes[j]]` is the descriptor `tz`, then the call returns with upper
bound `b`, cursor `j` and timezone `tz`; the lower bound is the boundary at `j - 1`
when that position was scanned, the previous upper bound when `j` is the first
position scanned on a forward resume, and `LLONG_MIN` when `j` is the first
position scanned on a restart. -/
theorem C7_found_boundary_step (g : Globals) (t j b : Int) (tz : PyObject)
    (hs : isStale g t = true) (hj : (scanStart g t).1 < j)
    (hb : PySequence_Fast_GET_ITEM g.fast_now_timestamps j = some b) (hgt : t < b)
    (hfirst : allPassed g t (scanStart g t).1 j) (htz : descriptorAt g j = some tz) :
    ∃ g', update_tzinfo g t = .ok g' ∧
      g'.fast_now_post_transition_secs = b ∧ g'.fast_now_transition_index = j ∧
      g'.fast_now_tzinfo = tz ∧
      ((scanStart g t).1 + 1 < j →
        PySequence_Fast_GET_ITEM g.fast_now_timestamps (j - 1)
          = some g'.fast_now_pre_transition_secs) ∧
      (j = (scanStart g t).1 + 1 → g.fast_now_post_transition_secs ≤ t →
        g'.fast_now_pre_transition_secs = g.fast_now_post_transition_secs) ∧
      (j = (scanStart g t).1 + 1 → t < g.fast_now_post_transition_secs →
        g'.fast_now_pre_transition_secs = PY_LLONG_MIN) ∧
      SameTables g g' := by
  have hjb := getItem_bounds hb
  have hstart : -1 ≤ (scanStart g t).1 := by
    by_cases hnext : (scanStart g t).1 + 1 < j
    · obtain ⟨x, hx, _⟩ := hfirst ((scanStart g t).1 + 1) (by omega) hnext
      have := (getItem_bounds hx).1
      omega
    · omega
  rcases update_tzinfo_spec_of_start g t hstart with ⟨hns, _⟩ | ⟨_, ⟨hge, _⟩ | ⟨_, hp, _⟩ | ⟨j', b', pre, hj', hb', hsecs', hp', hpre, hres⟩⟩
  · rw [hs] at hns
    cases hns
  · omega
  · obtain ⟨x, hx1, hx2⟩ := hp j hj hjb.2
    rw [hb] at hx1
    cases hx1
    omega
  · have hjj := first_unique g t (scanStart g t).1 j j' b b' hb hgt hfirst hj hb' hsecs' hp' hj'
    subst hjj
    rw [hb] at hb'
    cases hb'
    refine ⟨foundExit g j pre b tz, by rw [hres]; simp [foundOutcome, htz], rfl, rfl, rfl,
      ?_, ?_, ?_, ⟨rfl, rfl, rfl, rfl⟩⟩
    · intro hnext
      rcases hpre with ⟨h, _⟩ | ⟨_, h⟩
      · omega
      · exact h
    · intro hfirstpos hf
      rcases hpre with ⟨_, h⟩ | ⟨h, _⟩
      · rw [scanStart_forward g t hf] at h
        exact h
      · omega
    · intro hfirstpos hr
      rcases hpre with ⟨_, h⟩ | ⟨h, _⟩
      · rw [scanStart_restart g t hr] at h
        exact h
      · omega

/-- C7 at the scenario: from the window `[LLONG_MIN, 1000)` with cursor 0, the
call at 1500 resumes forward and stops at position 1. -/
theorem C7_found_boundary_step_witness :
    ∃ g', update_tzinfo (scenarioWindow PY_LLONG_MIN 1000 0 UTC1) 1500 = .ok g' ∧
      g'.fast_now_post_transition_secs = 2000 ∧ g'.fast_now_transition_index = 1 ∧
      g'.fast_now_tzinfo = UTC ∧
      ((scanStart (scenarioWindow PY_LLONG_MIN 1000 0 UTC1) 1500).1 + 1 < 1 →
        PySequence_Fast_GET_ITEM (scenarioWindow PY_LLONG_MIN 1000 0 UTC1).fast_now_timestamps (1 - 1)
          = some g'.fast_now_pre_transition_secs) ∧
      (1 = (scanStart (scenarioWindow PY_LLONG_MIN 1000 0 UTC1) 1500).1 + 1 →
        (scenarioWindow PY_LLONG_MIN 1000 0 UTC1).fast_now_post_transition_secs ≤ 1500 →
        g'.fast_now_pre_transition_secs
          = (scenarioWindow PY_LLONG_MIN 1000 0 UTC1).fast_now_post_transition_secs) ∧
      (1 = (scanStart (scenarioWindow PY_LLONG_MIN 1000 0 UTC1) 1500).1 + 1 →
        1500 < (scenarioWindow PY_LLONG_MIN 1000 0 UTC1).fast_now_post_transition_secs →
        g'.fast_now_pre_transition_secs = PY_LLONG_MIN) ∧
      SameTables (scenarioWindow PY_LLONG_MIN 1000 0 UTC1) g' :=
  C7_found_boundary_step (scenarioWindow PY_LLONG_MIN 1000 0 UTC1) 1500 1 2000 UTC
    (by decide) (by decide) (by decide) (by decide)
    (fun k h1 h2 => by
      have h3 : (scanStart (scenarioWindow PY_LLONG_MIN 1000 0 UTC1) 1500).1 = 0 := by decide
      omega)
    (by decide)

/-- The exhausted exit for any statics: when a stale call starts its scan before
the end of the table and every position after the starting point holds a
boundary not later than `t`, the lower bound becomes the upper bound held
before, the upper bound `LLONG_MAX`, the cursor the table length, and the
timezone stays. -/
theorem exhausted_exit_step (g : Globals) (t : Int) (hs : isStale g t = true)
    (hlt : (scanStart g t).1 < PySequence_Fast_GET_SIZE g.fast_now_timestamps)
    (hp : allPassed g t (scanStart g t).1 (PySequence_Fast_GET_SIZE g.fast_now_timestamps)) :
    ∃ g', update_tzinfo g t = .ok g' ∧
      g'.fast_now_pre_transition_secs = g.fast_now_post_transition_secs ∧
      g'.fast_now_post_transition_secs = PY_LLONG_MAX ∧
      g'.fast_now_transition_index = PySequence_Fast_GET_SIZE g.fast_now_timestamps ∧
      g'.fast_now_tzinfo = g.fast_now_tzinfo ∧ SameTables g g' := by
  have hstart : -1 ≤ (scanStart g t).1 := by
    by_cases hnext : (scanStart g t).1 + 1 < PySequence_Fast_GET_SIZE g.fast_now_timestamps
    · obtain ⟨x, hx, _⟩ := hp ((scanStart g t).1 + 1) (by omega) hnext
      have := (getItem_bounds hx).1
      omega
    · have := size_nonneg g.fast_now_timestamps
      omega
  rcases update_tzinfo_spec_of_start g t hstart with ⟨hns, _⟩ | ⟨_, ⟨hge, _⟩ | ⟨_, _, hres⟩ | ⟨j, b, pre, hj, hb, hsecs, _, _, _⟩⟩
  · rw [hs] at hns
    cases hns
  · omega
  · exact ⟨exhaustedExit g, hres, rfl, rfl, rfl, rfl, ⟨rfl, rfl, rfl, rfl⟩⟩
  · obtain ⟨x, hx1, hx2⟩ := hp j hj (getItem_bounds hb).2
    rw [hb] at hx1
    cases hx1
    omega

/-- C8: in every state reachable from a successful `init`, for every stale call
at an instant `t` below `LLONG_MAX` (as every clock reading is) such
that no table entry after the scan's starting point has a boundary later than
`t`, the call returns with lower bound equal to the upper bound held before,
upper bound `LLONG_MAX`, cursor equal to the table length, the timezone held
before, and the class and tables held before. -/
theorem C8_exhausted_table_step (statics : Option Globals) (a : InitArgs) (g0 g : Globals)
    (t : Int) (hinit : InitOk statics a g0) (hr : Reachable g0 g)
    (hmax : t < PY_LLONG_MAX) (hs : isStale g t = true)
    (hno : ∀ k b, (scanStart g t).1 < k →
      PySequence_Fast_GET_ITEM g.fast_now_timestamps k = some b → ¬ (t < b)) :
    ∃ g', update_tzinfo g t = .ok g' ∧
      g'.fast_now_pre_transition_secs = g.fast_now_post_transition_secs ∧
      g'.fast_now_post_transition_secs = PY_LLONG_MAX ∧
      g'.fast_now_transition_index = PySequence_Fast_GET_SIZE g.fast_now_timestamps ∧
      g'.fast_now_tzinfo = g.fast_now_tzinfo ∧ SameTables g g' := by
  have hw0 := initOk_shape statics a g0 hinit
  obtain ⟨hw, _⟩ := reachable_shape g0 g hw0 hr
  have hidx := windowShape_index_ge g hw
  have hstart := scanStart_ge g t hidx
  have hsz := size_nonneg g.fast_now_timestamps
  have hlt : (scanStart g t).1 < PySequence_Fast_GET_SIZE g.fast_now_timestamps := by
    by_cases hf : g.fast_now_post_transition_secs ≤ t
    · rw [scanStart_forward g t hf]
      simp only
      rcases hw with h | h | h
      · omega
      · exact (getItem_bounds h.2.1).2
      · omega
    · rw [scanStart_restart g t (by omega)]
      simp only
      omega
  have hp : allPassed g t (scanStart g t).1
      (PySequence_Fast_GET_SIZE g.fast_now_timestamps) := by
    intro k hk1 hk2
    obtain ⟨b, hb⟩ := getItem_inRange g.fast_now_timestamps k (by omega) hk2
    exact ⟨b, hb, by have := hno k b hk1 hb; omega⟩
  exact exhausted_exit_step g t hs hlt hp

/-- C8 at the scenario: after the call at 500 the window is `[LLONG_MIN, 1000)`
with cursor 0; the call at 2500 resumes forward, passes the boundary 2000 at
position 1 and exhausts the table. -/
theorem C8_exhausted_table_step_witness :
    ∃ g', update_tzinfo (scenarioWindow PY_LLONG_MIN 1000 0 UTC1) 2500 = .ok g' ∧
      g'.fast_now_pre_transition_secs
        = (scenarioWindow PY_LLONG_MIN 1000 0 UTC1).fast_now_post_transition_secs ∧
      g'.fast_now_post_transition_secs = PY_LLONG_MAX ∧
      g'.fast_now_transition_index
        = PySequence_Fast_GET_SIZE (scenarioWindow PY_LLONG_MIN 1000 0 UTC1).fast_now_timestamps ∧
      g'.fast_now_tzinfo = (scenarioWindow PY_LLONG_MIN 1000 0 UTC1).fast_now_tzinfo ∧
      SameTables (scenarioWindow PY_LLONG_MIN 1000 0 UTC1) g' :=
  C8_exhausted_table_step none scenarioArgs scenarioGlobals
    (scenarioWindow PY_LLONG_MIN 1000 0 UTC1) 2500 (by decide) ⟨[500], by decide, by decide⟩
    (by decide) (by decide)
    (fun k b hk hb => by
      have h1 : (scanStart (scenarioWindow PY_LLONG_MIN 1000 0 UTC1) 2500).1 = 0 := by decide
      have h2 : PySequence_Fast_GET_SIZE
          (scenarioWindow PY_LLONG_MIN 1000 0 UTC1).fast_now_timestamps = 2 := by decide
      have h3 := (getItem_bounds hb).2
      have hk1 : k = 1 := by omega
      subst hk1
      have h4 : PySequence_Fast_GET_ITEM
          (scenarioWindow PY_LLONG_MIN 1000 0 UTC1).fast_now_timestamps 1 = some 2000 := by decide
      rw [h4] at hb
      cases hb
      decide)

/-- C9: for any statics and any `t` with `lower_bound ≤ t < upper_bound`, the
call at `t` returns the statics unchanged: bounds, cursor, timezone, class and
tables. -/
theorem C9_in_window_noop (g : Globals) (t : Int)
    (hlo : g.fast_now_pre_transition_secs ≤ t) (hhi : t < g.fast_now_post_transition_secs) :
    update_tzinfo g t = .ok g := by
  have hns : isStale g t = false := by
    cases hst : isStale g t with
    | false => rfl
    | true =>
      rcases (isStale_iff g t).1 hst with h | h <;> omega
  simp [update_tzinfo, hns]

/-- C9 at the scenario: the call at 1700 in the window `[1000, 2000)`. -/
theorem C9_in_window_noop_witness :
    update_tzinfo (scenarioWindow 1000 2000 1 UTC) 1700 = .ok (scenarioWindow 1000 2000 1 UTC) :=
  C9_in_window_noop (scenarioWindow 1000 2000 1 UTC) 1700 (by decide) (by decide)

/-- C10: whatever the statics held before, `init` called with a type, three
iterables of which the boundaries and the indexes have the same length, and a
default index inside the descriptor table returns `None` and leaves lower bound
and upper bound `LLONG_MIN`, cursor `-1`, timezone `descriptors[default_index]` and
the class and tables of the arguments; the result does not depend on the prior
statics, and the next call at any `long long` instant is stale and scans from
cursor `-1` with lower candidate `LLONG_MIN`. -/
theorem C10_init_reset (statics : Option Globals) (cls : PyObject) (tzinfos : List PyObject)
    (timestamps indexes : List Int) (default_index : Int) (tzinfo : PyObject)
    (hc : PyType_Check cls = true)
    (hsz : PySequence_Fast_GET_SIZE timestamps = PySequence_Fast_GET_SIZE indexes)
    (hd : PySequence_Fast_GET_ITEM tzinfos default_index = some tzinfo) :
    ∃ g0, fast_now_init statics
        { cls := cls, tzinfos := .iterable tzinfos, timestamps := .iterable timestamps,
          indexes := .iterable indexes, default_index := default_index } = .ok (some g0, .None) ∧
      g0 = freshGlobals cls tzinfos timestamps indexes tzinfo ∧
      g0.fast_now_pre_transition_secs = PY_LLONG_MIN ∧
      g0.fast_now_post_transition_secs = PY_LLONG_MIN ∧
      g0.fast_now_transition_index = -1 ∧
      g0.fast_now_tzinfo = tzinfo ∧
      g0.fast_now_class = cls ∧ g0.fast_now_tzinfos = tzinfos ∧
      g0.fast_now_timestamps = timestamps ∧ g0.fast_now_indexes = indexes ∧
      ∀ t, isLongLong t →
        isStale g0 t = true ∧ scanStart g0 t = (-1, PY_LLONG_MIN) ∧
        update_tzinfo g0 t
          = scanLoop g0 t (scanFuel g0 (-1)) (-1) PY_LLONG_MIN := by
  refine ⟨freshGlobals cls tzinfos timestamps indexes tzinfo, ?_, rfl, rfl, rfl, rfl, rfl, rfl,
    rfl, rfl, rfl, ?_⟩
  · simp [fast_now_init, hc, PySequence_Fast, hsz, hd, freshGlobals]
  · intro t ht
    have hf : (freshGlobals cls tzinfos timestamps indexes tzinfo).fast_now_post_transition_secs
        ≤ t := ht.1
    have hstale := (isStale_iff (freshGlobals cls tzinfos timestamps indexes tzinfo) t).2 (Or.inl hf)
    have hstart : scanStart (freshGlobals cls tzinfos timestamps indexes tzinfo) t
        = (-1, PY_LLONG_MIN) :=
      scanStart_forward _ t hf
    refine ⟨hstale, hstart, ?_⟩
    simp only [update_tzinfo, hstale, hstart, if_true]

/-- C10 at the scenario's arguments, with statics left by earlier calls. -/
theorem C10_init_reset_witness :
    ∃ g0, fast_now_init (some (scenarioWindow 1000 2000 1 UTC))
        { cls := .type 7, tzinfos := .iterable [UTC1, UTC, .Py_None],
          timestamps := .iterable [10, 20, 30], indexes := .iterable [2, 0, 1],
          default_index := 2 } = .ok (some g0, .None) ∧
      g0 = freshGlobals (.type 7) [UTC1, UTC, .Py_None] [10, 20, 30] [2, 0, 1] .Py_None ∧
      g0.fast_now_pre_transition_secs = PY_LLONG_MIN ∧
      g0.fast_now_post_transition_secs = PY_LLONG_MIN ∧
      g0.fast_now_transition_index = -1 ∧
      g0.fast_now_tzinfo = .Py_None ∧
      g0.fast_now_class = .type 7 ∧ g0.fast_now_tzinfos = [UTC1, UTC, .Py_None] ∧
      g0.fast_now_timestamps = [10, 20, 30] ∧ g0.fast_now_indexes = [2, 0, 1] ∧
      ∀ t, isLongLong t →
        isStale g0 t = true ∧ scanStart g0 t = (-1, PY_LLONG_MIN) ∧
        update_tzinfo g0 t
          = scanLoop g0 t (scanFuel g0 (-1)) (-1) PY_LLONG_MIN :=
  C10_init_reset (some (scenarioWindow 1000 2000 1 UTC)) (.type 7) [UTC1, UTC, .Py_None]
    [10, 20, 30] [2, 0, 1] 2 .Py_None (by decide) (by decide) (by decide)

/-- What `init` does, by cases on its arguments: an exception with the statics
untouched, a read outside the descriptor table, or `None` with fresh statics. -/
theorem fast_now_init_cases (statics : Option Globals) (a : InitArgs) :
    (InitViolation a ∧ ∃ e, fast_now_init statics a = .ok (statics, .raised e)) ∨
    (¬ InitViolation a ∧ ¬ DefaultInRange a ∧ fast_now_init statics a = .undefined) ∨
    (¬ InitViolation a ∧ DefaultInRange a ∧ ∃ g0, fast_now_init statics a = .ok (some g0, .None)) := by
  obtain ⟨cls, tzs, tss, ixs, d⟩ := a
  by_cases hc : PyType_Check cls = true
  · cases tzs with
    | notIterable =>
      exact Or.inl ⟨Or.inr (Or.inl rfl), .tzinfosNotSequence,
        by simp [fast_now_init, hc, PySequence_Fast]⟩
    | iterable tzinfos =>
      cases tss with
      | notIterable =>
        exact Or.inl ⟨Or.inr (Or.inr (Or.inl rfl)), .timestampsNotSequence,
          by simp [fast_now_init, hc, PySequence_Fast]⟩
      | iterable timestamps =>
        cases ixs with
        | notIterable =>
          exact Or.inl ⟨Or.inr (Or.inr (Or.inr (Or.inl rfl))), .indexesNotSequence,
            by simp [fast_now_init, hc, PySequence_Fast]⟩
        | iterable indexes =>
          by_cases hsz : PySequence_Fast_GET_SIZE timestamps = PySequence_Fast_GET_SIZE indexes
          · have hnv : ¬ InitViolation
                { cls := cls, tzinfos := .iterable tzinfos, timestamps := .iterable timestamps,
                  indexes := .iterable indexes, default_index := d } := by
              simp [InitViolation, hc, PySequence_Fast, hsz]
            cases hd : PySequence_Fast_GET_ITEM tzinfos d with
            | none =>
              refine Or.inr (Or.inl ⟨hnv, ?_, by simp [fast_now_init, hc, PySequence_Fast, hsz, hd]⟩)
              rintro ⟨tzinfos', tz, h1, h2⟩
              simp only [PySequence_Fast, Option.some.injEq] at h1
              subst h1
              rw [hd] at h2
              cases h2
            | some tz =>
              exact Or.inr (Or.inr ⟨hnv, ⟨tzinfos, tz, rfl, hd⟩,
                freshGlobals cls tzinfos timestamps indexes tz,
                by simp [fast_now_init, hc, PySequence_Fast, hsz, hd, freshGlobals]⟩)
          · exact Or.inl ⟨by simp [InitViolation, PySequence_Fast, hsz], .sizeMismatch,
              by simp [fast_now_init, hc, PySequence_Fast, hsz]⟩
  · have hc' : PyType_Check cls = false := by simpa using hc
    exact Or.inl ⟨Or.inl hc', .classNotType, by simp [fast_now_init, hc']⟩

/-- The parse succeeds exactly on the tuples `tupleOf a` with `a.default_index` a
`Py_ssize_t`. -/
theorem parseTuple_some {args : ArgTuple} {a : InitArgs} (h : PyArg_ParseTuple args = some a) :
    args = tupleOf a ∧ PY_SSIZE_T_MIN ≤ a.default_index ∧ a.default_index ≤ PY_SSIZE_T_MAX := by
  cases args with
  | notFive => simp [PyArg_ParseTuple] at h
  | five cls tzinfos timestamps indexes d =>
    cases d with
    | notInteger => simp [PyArg_ParseTuple] at h
    | integer value =>
      by_cases hr : PY_SSIZE_T_MIN ≤ value ∧ value ≤ PY_SSIZE_T_MAX
      · simp only [PyArg_ParseTuple, hr, and_self, if_true, Option.some.injEq] at h
        subst h
        exact ⟨rfl, hr.1, hr.2⟩
      · simp [PyArg_ParseTuple, hr] at h

theorem listedViolation_tupleOf (a : InitArgs) : ListedViolation (tupleOf a) ↔ InitViolation a :=
  Iff.rfl

/-- C11 as stated fails: the scenario's tuple with default index 2 shows none of
the named violations, yet `init` does not succeed: line 64 reads past the two
descriptors. Nor does it succeed on the scenario's tuple with a fifth argument
that is no integer, or that is `2^63`: line 25 raises, again with none of the
named violations. -/
theorem C11_init_counterexample :
    (¬ ListedViolation (tupleOf strayDefaultArgs) ∧
      fast_now_init_call none (tupleOf strayDefaultArgs) = .undefined) ∧
    (¬ ListedViolation noIntegerTuple ∧
      fast_now_init_call none noIntegerTuple = .ok (none, .raised .argumentsNotParsed)) ∧
    (¬ ListedViolation hugeDefaultTuple ∧
      fast_now_init_call none hugeDefaultTuple = .ok (none, .raised .argumentsNotParsed)) :=
  ⟨⟨by decide, by decide⟩, ⟨by decide, by decide⟩, ⟨by decide, by decide⟩⟩

/-- C11 (amended): whatever the statics hold, a call of `init` raises exactly
when `PyArg_ParseTuple` rejects the tuple (not five arguments, or a default
index that is no integer of `Py_ssize_t` range) or the tuple shows one of the
named violations (the class is not a type, a table cannot be iterated, the
boundary and index tables differ in length); whenever it raises, the statics
(class, tables, bounds, cursor, timezone) are what they were; and it succeeds
exactly when the tuple is parsed, shows none of the named violations and the
default index is a position of the descriptor table. -/
theorem C11_init_failure_atomic (statics : Option Globals) (args : ArgTuple) :
    (ListedViolation args → ∃ e, fast_now_init_call statics args = .ok (statics, .raised e)) ∧
    ((∃ e, fast_now_init_call statics args = .ok (statics, .raised e)) ↔
      PyArg_ParseTuple args = none ∨ ListedViolation args) ∧
    (∀ s e, fast_now_init_call statics args = .ok (s, .raised e) → s = statics) ∧
    ((∃ g0, fast_now_init_call statics args = .ok (some g0, .None)) ↔
      ¬ ListedViolation args ∧ ∃ a, PyArg_ParseTuple args = some a ∧ DefaultInRange a) ∧
    (∀ a g0, PyArg_ParseTuple args = some a →
      (fast_now_init_call statics args = .ok (some g0, .None) ↔ InitOk statics a g0)) := by
  cases hp : PyArg_ParseTuple args with
  | none =>
    have hcall : fast_now_init_call statics args
        = .ok (statics, .raised .argumentsNotParsed) := by
      simp [fast_now_init_call, hp]
    refine ⟨fun _ => ⟨_, hcall⟩, ⟨fun _ => Or.inl rfl, fun _ => ⟨_, hcall⟩⟩, ?_, ?_, ?_⟩
    · intro s e h
      rw [hcall] at h
      simp only [Outcome.ok.injEq, Prod.mk.injEq] at h
      exact h.1.symm
    · constructor
      · rintro ⟨g0, h⟩
        rw [hcall] at h
        simp at h
      · rintro ⟨_, a, ha, _⟩
        cases ha
    · intro a g0 ha
      cases ha
  | some a =>
    have hcall : fast_now_init_call statics args = fast_now_init statics a := by
      simp [fast_now_init_call, hp]
    have hargs := (parseTuple_some hp).1
    have hlv : ListedViolation args ↔ InitViolation a := by
      rw [hargs]
      exact listedViolation_tupleOf a
    rw [hcall]
    rcases fast_now_init_cases statics a with ⟨hv, e, he⟩ | ⟨hv, hd, hu⟩ | ⟨hv, hd, g0, hg⟩
    · refine ⟨fun _ => ⟨e, he⟩, ⟨fun _ => Or.inr (hlv.2 hv), fun _ => ⟨e, he⟩⟩, ?_, ?_, ?_⟩
      · intro s e' h
        rw [he] at h
        simp only [Outcome.ok.injEq, Prod.mk.injEq] at h
        exact h.1.symm
      · constructor
        · rintro ⟨g0, h⟩
          rw [he] at h
          simp at h
        · rintro ⟨h, _⟩
          exact (h (hlv.2 hv)).elim
      · intro a' g0 ha
        cases ha
        exact Iff.rfl
    · refine ⟨fun h => (hv (hlv.1 h)).elim, ⟨?_, ?_⟩, ?_, ?_, ?_⟩
      · rintro ⟨e, he⟩
        rw [hu] at he
        cases he
      · rintro (h | h)
        · cases h
        · exact (hv (hlv.1 h)).elim
      · intro s e h
        rw [hu] at h
        cases h
      · constructor
        · rintro ⟨g0, h⟩
          rw [hu] at h
          cases h
        · rintro ⟨_, a', ha, hd'⟩
          cases ha
          exact (hd hd').elim
      · intro a' g0 ha
        cases ha
        exact Iff.rfl
    · refine ⟨fun h => (hv (hlv.1 h)).elim, ⟨?_, ?_⟩, ?_, ?_, ?_⟩
      · rintro ⟨e, he⟩
        rw [hg] at he
        simp at he
      · rintro (h | h)
        · cases h
        · exact (hv (hlv.1 h)).elim
      · intro s e h
        rw [hg] at h
        simp at h
      · exact ⟨fun _ => ⟨fun h => hv (hlv.1 h), a, rfl, hd⟩, fun _ => ⟨g0, hg⟩⟩
      · intro a' g0' ha
        cases ha
        exact Iff.rfl

/-! ## The calendar value -/

theorem shiftRight_land (a b i : Nat) : (a &&& b) >>> i = (a >>> i) &&& (b >>> i) := by
  apply Nat.eq_of_testBit_eq
  intro j
  simp [Nat.testBit_shiftRight, Nat.testBit_and]

theorem land_ff (n : Nat) : n &&& 0xff = n % 256 :=
  Nat.and_pow_two_sub_one_eq_mod n 8

theorem land_ff00_shift (n : Nat) : (n &&& 0xff00) >>> 8 = n / 256 % 256 := by
  rw [shiftRight_land]
  have h1 : (0xff00 : Nat) >>> 8 = 0xff := by decide
  rw [h1, land_ff, Nat.shiftRight_eq_div_pow]

theorem land_ff0000_shift (n : Nat) : (n &&& 0xff0000) >>> 16 = n / 65536 % 256 := by
  rw [shiftRight_land]
  have h1 : (0xff0000 : Nat) >>> 16 = 0xff := by decide
  rw [h1, land_ff, Nat.shiftRight_eq_div_pow]

theorem intBits_of_nonneg (v : Int) (h0 : 0 ≤ v) (h1 : v < 4294967296) : intBits v = v.toNat := by
  unfold intBits
  rw [Int.emod_eq_of_lt h0 h1]

/-- The object built by step 3 when the allocation succeeds, field by field. -/
theorem new_datetime_ex2_eq (tz : PyObject) (year month day hour minute second usecond : Int) :
    new_datetime_ex2 tz true year month day hour minute second usecond
      = some
        { hashcode := -1
          hastzinfo := tz != PyObject.Py_None
          data := [toUChar ((intBits year &&& 0xff00) >>> 8), toUChar (intBits year &&& 0x00ff),
            toUChar (intBits month), toUChar (intBits day), toUChar (intBits hour),
            toUChar (intBits minute), toUChar (intBits second),
            toUChar ((intBits usecond &&& 0xff0000) >>> 16),
            toUChar ((intBits usecond &&& 0x00ff00) >>> 8), toUChar (intBits usecond &&& 0x0000ff)]
          tzinfo := if (tz != PyObject.Py_None) = true then some tz else none
          fold := 0 } := by
  cases h : (tz != PyObject.Py_None) <;>
    simp [new_datetime_ex2, h, zeroedDateTime, SET_YEAR, SET_MONTH, SET_DAY, DATE_SET_HOUR,
      DATE_SET_MINUTE, DATE_SET_SECOND, DATE_SET_MICROSECOND, DATE_SET_FOLD, List.replicate,
      toUChar, intBits]

/-- The result of `fast_now_now` when the clock, the window update and the local
time conversion all answer. -/
theorem fast_now_now_eq (g g' : Globals) (p : Platform) (secs usecond : Int) (tm : Tm)
    (hclock : p.clock = some (secs, usecond)) (hupd : update_tzinfo g secs = .ok g')
    (htm : p.localtime secs = some tm) :
    fast_now_now g p = .ok (g', new_datetime_ex2 g'.fast_now_tzinfo p.allocated
      (tm.tm_year + 1900) (tm.tm_mon + 1) tm.tm_mday tm.tm_hour tm.tm_min
      (Py_MIN 59 tm.tm_sec) usecond) := by
  simp [fast_now_now, hclock, hupd, htm]

/-- A byte-sized value is stored unchanged. -/
theorem toUChar_intBits (v : Int) (h0 : 0 ≤ v) (h1 : v < 256) :
    ((toUChar (intBits v) : Nat) : Int) = v := by
  rw [intBits_of_nonneg v h0 (by omega)]
  unfold toUChar
  omega

theorem Py_MIN_eq_min (x y : Int) : Py_MIN x y = min x y := by
  unfold Py_MIN
  split <;> omega

/-- The two bytes written by `SET_YEAR` for a year of 16 bits. -/
theorem year_bytes (year : Int) (h0 : 0 ≤ year) (h1 : year ≤ 65535) :
    toUChar ((intBits year &&& 0xff00) >>> 8) < 256 ∧ toUChar (intBits year &&& 0x00ff) < 256 ∧
      ((toUChar ((intBits year &&& 0xff00) >>> 8) : Nat) : Int) * 256
        + ((toUChar (intBits year &&& 0x00ff) : Nat) : Int) = year := by
  rw [intBits_of_nonneg year h0 (by omega), land_ff00_shift, land_ff]
  unfold toUChar
  omega

/-- The three bytes written by `DATE_SET_MICROSECOND` for a value of 24 bits. -/
theorem microsecond_bytes (usecond : Int) (h0 : 0 ≤ usecond) (h1 : usecond < 16777216) :
    toUChar ((intBits usecond &&& 0xff0000) >>> 16) < 256 ∧
      toUChar ((intBits usecond &&& 0x00ff00) >>> 8) < 256 ∧
      toUChar (intBits usecond &&& 0x0000ff) < 256 ∧
      ((toUChar ((intBits usecond &&& 0xff0000) >>> 16) : Nat) : Int) * 65536
        + ((toUChar ((intBits usecond &&& 0x00ff00) >>> 8) : Nat) : Int) * 256
        + ((toUChar (intBits usecond &&& 0x0000ff) : Nat) : Int) = usecond := by
  rw [intBits_of_nonneg usecond h0 (by omega), land_ff0000_shift, land_ff00_shift, land_ff]
  unfold toUChar
  omega

/-- C13: whenever `now` builds a value from a local time `tm` with
`tm_sec ≥ 0`, the value is the raw construction from year `tm_year + 1900`, month
`tm_mon + 1`, day `tm_mday`, hour `tm_hour`, minute `tm_min` and second
`min 59 tm_sec`; its second byte holds `min 59 tm_sec`, which lies in `[0, 59]`, and
the year, month, day, hour and minute it stores are those values whenever they
fit their bytes. -/
theorem C13_second_clamp (g g' : Globals) (p : Platform) (secs usecond : Int) (tm : Tm)
    (hclock : p.clock = some (secs, usecond)) (hupd : update_tzinfo g secs = .ok g')
    (htm : p.localtime secs = some tm) (halloc : p.allocated = true) (hsec : 0 ≤ tm.tm_sec) :
    ∃ dt, fast_now_now g p = .ok (g', some dt) ∧
      new_datetime_ex2 g'.fast_now_tzinfo true (tm.tm_year + 1900) (tm.tm_mon + 1) tm.tm_mday
        tm.tm_hour tm.tm_min (min 59 tm.tm_sec) usecond = some dt ∧
      byteAt dt 6 = min 59 tm.tm_sec ∧ 0 ≤ byteAt dt 6 ∧ byteAt dt 6 ≤ 59 ∧
      (0 ≤ tm.tm_year + 1900 → tm.tm_year + 1900 ≤ 65535 →
        byteAt dt 0 * 256 + byteAt dt 1 = tm.tm_year + 1900) ∧
      (0 ≤ tm.tm_mon + 1 → tm.tm_mon + 1 < 256 → byteAt dt 2 = tm.tm_mon + 1) ∧
      (0 ≤ tm.tm_mday → tm.tm_mday < 256 → byteAt dt 3 = tm.tm_mday) ∧
      (0 ≤ tm.tm_hour → tm.tm_hour < 256 → byteAt dt 4 = tm.tm_hour) ∧
      (0 ≤ tm.tm_min → tm.tm_min < 256 → byteAt dt 5 = tm.tm_min) := by
  have hres := fast_now_now_eq g g' p secs usecond tm hclock hupd htm
  rw [halloc, Py_MIN_eq_min] at hres
  have hnew := new_datetime_ex2_eq g'.fast_now_tzinfo (tm.tm_year + 1900) (tm.tm_mon + 1)
    tm.tm_mday tm.tm_hour tm.tm_min (min 59 tm.tm_sec) usecond
  rw [hnew] at hres
  have hs : ((toUChar (intBits (min 59 tm.tm_sec)) : Nat) : Int) = min 59 tm.tm_sec :=
    toUChar_intBits _ (by omega) (by omega)
  refine ⟨_, hres, hnew, ?_, ?_, ?_, ?_, ?_, ?_, ?_, ?_⟩
  · simpa [byteAt] using hs
  · simp only [byteAt, List.getD_cons_succ, List.getD_cons_zero]
    omega
  · simp only [byteAt, List.getD_cons_succ, List.getD_cons_zero]
    omega
  · intro h0 h1
    simpa [byteAt] using (year_bytes _ h0 h1).2.2
  · intro h0 h1
    simpa [byteAt] using toUChar_intBits _ h0 h1
  · intro h0 h1
    simpa [byteAt] using toUChar_intBits _ h0 h1
  · intro h0 h1
    simpa [byteAt] using toUChar_intBits _ h0 h1
  · intro h0 h1
    simpa [byteAt] using toUChar_intBits _ h0 h1


/-- C13 at a sample: the platform reports 01:46:60 on 2001-09-09; the value
built holds second 59 and the year 2001. -/
theorem C13_second_clamp_witness :
    ∃ dt, fast_now_now (scenarioWindow 1000 2000 1 UTC) (platformOf 1500 123456 sampleTm)
        = .ok (scenarioWindow 1000 2000 1 UTC, some dt) ∧
      byteAt dt 6 = 59 ∧ byteAt dt 0 * 256 + byteAt dt 1 = 2001 := by
  obtain ⟨dt, h1, _, h3, _, _, h6, _⟩ :=
    C13_second_clamp (scenarioWindow 1000 2000 1 UTC) (scenarioWindow 1000 2000 1 UTC)
      (platformOf 1500 123456 sampleTm) 1500 123456 sampleTm rfl (by decide) rfl rfl (by decide)
  exact ⟨dt, h1, h3, h6 (by decide) (by decide)⟩

theorem getD_set_same (l : List Nat) (i x : Nat) (h : i < l.length) : (l.set i x).getD i 0 = x := by
  simp [List.getD_eq_getElem?_getD, List.getElem?_set, h]

theorem getD_set_other (l : List Nat) (i j x : Nat) (h : i ≠ j) :
    (l.set i x).getD j 0 = l.getD j 0 := by
  simp [List.getD_eq_getElem?_getD, List.getElem?_set, h]

/-- C18: on an object of ten data bytes, for a year in `[0, 65535]` and a
microsecond in `[0, 1000000)`, the bytes `SET_YEAR` writes at 0 and 1 and the bytes
`DATE_SET_MICROSECOND` writes at 7, 8 and 9 are all below 256, and
`data[0] * 256 + data[1]` is the year and
`data[7] * 65536 + data[8] * 256 + data[9]` the microsecond; the same holds in the
object `now` builds from such a year and microsecond. -/
theorem C18_field_packing (o : PyDateTime_DateTime) (year usecond : Int)
    (ho : o.data.length = 10) (hy0 : 0 ≤ year) (hy1 : year ≤ 65535)
    (hu0 : 0 ≤ usecond) (hu1 : usecond < 1000000) :
    (0 ≤ byteAt (SET_YEAR o year) 0 ∧ byteAt (SET_YEAR o year) 0 < 256 ∧
      0 ≤ byteAt (SET_YEAR o year) 1 ∧ byteAt (SET_YEAR o year) 1 < 256 ∧
      byteAt (SET_YEAR o year) 0 * 256 + byteAt (SET_YEAR o year) 1 = year) ∧
    (0 ≤ byteAt (DATE_SET_MICROSECOND o usecond) 7 ∧
      byteAt (DATE_SET_MICROSECOND o usecond) 7 < 256 ∧
      0 ≤ byteAt (DATE_SET_MICROSECOND o usecond) 8 ∧
      byteAt (DATE_SET_MICROSECOND o usecond) 8 < 256 ∧
      0 ≤ byteAt (DATE_SET_MICROSECOND o usecond) 9 ∧
      byteAt (DATE_SET_MICROSECOND o usecond) 9 < 256 ∧
      byteAt (DATE_SET_MICROSECOND o usecond) 7 * 65536
        + byteAt (DATE_SET_MICROSECOND o usecond) 8 * 256
        + byteAt (DATE_SET_MICROSECOND o usecond) 9 = usecond) ∧
    (∀ (tz : PyObject) (month day hour minute second : Int),
      ∃ dt, new_datetime_ex2 tz true year month day hour minute second usecond = some dt ∧
        byteAt dt 0 * 256 + byteAt dt 1 = year ∧
        byteAt dt 7 * 65536 + byteAt dt 8 * 256 + byteAt dt 9 = usecond) := by
  obtain ⟨hy2, hy3, hy4⟩ := year_bytes year hy0 hy1
  obtain ⟨hu2, hu3, hu4, hu5⟩ := microsecond_bytes usecond hu0 (by omega)
  have e0 : byteAt (SET_YEAR o year) 0
      = ((toUChar ((intBits year &&& 0xff00) >>> 8) : Nat) : Int) := by
    simp only [byteAt, SET_YEAR]
    rw [getD_set_other _ 1 0 _ (by decide), getD_set_same _ 0 _ (by omega)]
  have e1 : byteAt (SET_YEAR o year) 1 = ((toUChar (intBits year &&& 0x00ff) : Nat) : Int) := by
    simp only [byteAt, SET_YEAR]
    rw [getD_set_same _ 1 _ (by simp [ho])]
  have e7 : byteAt (DATE_SET_MICROSECOND o usecond) 7
      = ((toUChar ((intBits usecond &&& 0xff0000) >>> 16) : Nat) : Int) := by
    simp only [byteAt, DATE_SET_MICROSECOND]
    rw [getD_set_other _ 9 7 _ (by decide), getD_set_other _ 8 7 _ (by decide),
      getD_set_same _ 7 _ (by omega)]
  have e8 : byteAt (DATE_SET_MICROSECOND o usecond) 8
      = ((toUChar ((intBits usecond &&& 0x00ff00) >>> 8) : Nat) : Int) := by
    simp only [byteAt, DATE_SET_MICROSECOND]
    rw [getD_set_other _ 9 8 _ (by decide), getD_set_same _ 8 _ (by simp [ho])]
  have e9 : byteAt (DATE_SET_MICROSECOND o usecond) 9
      = ((toUChar (intBits usecond &&& 0x0000ff) : Nat) : Int) := by
    simp only [byteAt, DATE_SET_MICROSECOND]
    rw [getD_set_same _ 9 _ (by simp [ho])]
  refine ⟨?_, ?_, ?_⟩
  · rw [e0, e1]
    refine ⟨by omega, by omega, by omega, by omega, hy4⟩
  · rw [e7, e8, e9]
    refine ⟨by omega, by omega, by omega, by omega, by omega, by omega, hu5⟩
  · intro tz month day hour minute second
    refine ⟨_, new_datetime_ex2_eq tz year month day hour minute second usecond, ?_, ?_⟩
    · simpa [byteAt] using hy4
    · simpa [byteAt] using hu5

/-- C18 on the zero-filled object, for the year 2001 and 123456 microseconds. -/
theorem C18_field_packing_witness :
    byteAt (SET_YEAR zeroedDateTime 2001) 0 * 256 + byteAt (SET_YEAR zeroedDateTime 2001) 1 = 2001 ∧
      byteAt (DATE_SET_MICROSECOND zeroedDateTime 123456) 7 * 65536
        + byteAt (DATE_SET_MICROSECOND zeroedDateTime 123456) 8 * 256
        + byteAt (DATE_SET_MICROSECOND zeroedDateTime 123456) 9 = 123456 :=
  ⟨(C18_field_packing zeroedDateTime 2001 123456 (by decide) (by decide) (by decide) (by decide)
      (by decide)).1.2.2.2.2,
    (C18_field_packing zeroedDateTime 2001 123456 (by decide) (by decide) (by decide) (by decide)
      (by decide)).2.1.2.2.2.2.2.2⟩


/-! ## Invariants of reachable states -/

/-- With valid indexes a window update started from a cursor of at least `-1`
returns a state. -/
theorem update_tzinfo_total (g : Globals) (secs : Int) (hidx : -1 ≤ g.fast_now_transition_index)
    (hv : IndexesValid g) : ∃ g', update_tzinfo g secs = .ok g' := by
  rcases update_tzinfo_spec g secs hidx with ⟨_, h⟩ | ⟨_, ⟨_, h⟩ | ⟨_, _, h⟩ | ⟨j, b, pre, hj, hb, _, _, _, h⟩⟩
  · exact ⟨g, h⟩
  · exact ⟨g, h⟩
  · exact ⟨exhaustedExit g, h⟩
  · have hstart := scanStart_ge g secs hidx
    obtain ⟨tz, htz⟩ := indexesValid_descriptorAt g hv j (by omega) (getItem_bounds hb).2
    exact ⟨foundExit g j pre b tz, by rw [h]; simp [foundOutcome, htz]⟩

/-- A window update leaves the cursor non-negative, unless it changes nothing. -/
theorem update_tzinfo_index (g g' : Globals) (secs : Int)
    (hidx : -1 ≤ g.fast_now_transition_index) (h : update_tzinfo g secs = .ok g') :
    g' = g ∨ 0 ≤ g'.fast_now_transition_index := by
  rcases update_tzinfo_spec g secs hidx with ⟨_, h1⟩ | ⟨_, ⟨_, h1⟩ | ⟨_, _, h1⟩ | ⟨j, b, pre, hj, hb, _, _, _, h1⟩⟩
  · rw [h1] at h; cases h; exact Or.inl rfl
  · rw [h1] at h; cases h; exact Or.inl rfl
  · rw [h1] at h; cases h
    exact Or.inr (size_nonneg g.fast_now_timestamps)
  · rw [h1] at h
    obtain ⟨tz, _, hg⟩ := foundOutcome_ok h
    subst hg
    exact Or.inr (getItem_bounds hb).1

theorem queries_index_nonneg (g g' : Globals) (qs : List Int)
    (hidx : 0 ≤ g.fast_now_transition_index) (h : queries g qs = .ok g') :
    0 ≤ g'.fast_now_transition_index := by
  induction qs generalizing g with
  | nil =>
    simp only [queries, Outcome.ok.injEq] at h
    subst h
    exact hidx
  | cons q qs ih =>
    obtain ⟨g1, hu, hrest⟩ := queries_ok_cons h
    have h1 : 0 ≤ g1.fast_now_transition_index := by
      rcases update_tzinfo_index g g1 q (by omega) hu with h' | h'
      · rw [h']; exact hidx
      · exact h'
    exact ih g1 h1 hrest

/-- A reachable state is the state left by `init` or has a non-negative cursor. -/
theorem reachable_fresh_or_nonneg (g0 g : Globals) (hidx : g0.fast_now_transition_index = -1)
    (hpost : g0.fast_now_post_transition_secs = PY_LLONG_MIN) (hr : Reachable g0 g) :
    g = g0 ∨ 0 ≤ g.fast_now_transition_index := by
  obtain ⟨qs, hqs, hq⟩ := hr
  cases qs with
  | nil =>
    simp only [queries, Outcome.ok.injEq] at hq
    exact Or.inl hq.symm
  | cons q qs =>
    right
    obtain ⟨g1, hu, hrest⟩ := queries_ok_cons hq
    have hq1 : isLongLong q := hqs q (List.mem_cons_self _ _)
    have h1 : 0 ≤ g1.fast_now_transition_index := by
      obtain ⟨_, _, hcase⟩ := fresh_spec g0 q hidx hpost hq1.1
      rcases hcase with ⟨_, h⟩ | ⟨j, b, pre, hj, _, _, _, _, h⟩
      · rw [h] at hu; cases hu
        exact size_nonneg g0.fast_now_timestamps
      · rw [h] at hu
        obtain ⟨tz, _, hg⟩ := foundOutcome_ok hu
        subst hg
        exact hj
    exact queries_index_nonneg g1 g qs h1 hrest

/-- C15: in every state reachable from a successful `init`, for every `long long`
instant `t` below `LLONG_MAX`, the statics left by the call at `t` have
`lower_bound ≤ t < upper_bound`; with valid indexes the call does leave statics. -/
theorem C15_window_covers_query (statics : Option Globals) (a : InitArgs) (g0 g : Globals)
    (t : Int) (hinit : InitOk statics a g0) (hr : Reachable g0 g) (ht : isLongLong t)
    (hmax : t < PY_LLONG_MAX) :
    (∀ g', update_tzinfo g t = .ok g' →
      g'.fast_now_pre_transition_secs ≤ t ∧ t < g'.fast_now_post_transition_secs) ∧
    (IndexesValid g0 → ∃ g', update_tzinfo g t = .ok g' ∧
      g'.fast_now_pre_transition_secs ≤ t ∧ t < g'.fast_now_post_transition_secs) := by
  have hw0 := initOk_shape statics a g0 hinit
  obtain ⟨hw, hst⟩ := reachable_shape g0 g hw0 hr
  have hcov : ∀ g', update_tzinfo g t = .ok g' →
      g'.fast_now_pre_transition_secs ≤ t ∧ t < g'.fast_now_post_transition_secs := by
    intro g' h
    rcases update_tzinfo_covers g g' t hw ht.1 h with ⟨_, h'⟩ | ⟨h1, h2 | h2⟩
    · omega
    · exact ⟨h1, h2⟩
    · exact ⟨h1, by omega⟩
  refine ⟨hcov, ?_⟩
  intro hv
  obtain ⟨g', hg'⟩ := update_tzinfo_total g t (windowShape_index_ge g hw)
    (indexesValid_congr hst hv)
  exact ⟨g', hg', hcov g' hg'⟩

/-- C15 at the scenario: after the calls at 500 and 1500, the call at 2500. -/
theorem C15_window_covers_query_witness :
    (∀ g', update_tzinfo (scenarioWindow 1000 2000 1 UTC) 2500 = .ok g' →
      g'.fast_now_pre_transition_secs ≤ 2500 ∧ 2500 < g'.fast_now_post_transition_secs) ∧
    (IndexesValid scenarioGlobals →
      ∃ g', update_tzinfo (scenarioWindow 1000 2000 1 UTC) 2500 = .ok g' ∧
        g'.fast_now_pre_transition_secs ≤ 2500 ∧ 2500 < g'.fast_now_post_transition_secs) :=
  C15_window_covers_query none scenarioArgs scenarioGlobals (scenarioWindow 1000 2000 1 UTC) 2500
    (by decide) ⟨[500, 1500], by decide, by decide⟩ (by decide) (by decide)

/-- C16: in every state reachable from a successful `init`, with `n` the table
length: `-1 ≤ cursor ≤ n`; the cursor is `-1` exactly in the state left by `init`,
where both bounds are `LLONG_MIN`; a cursor in `[0, n)` has
`upper_bound = boundary[cursor]`; the cursor `n` has `upper_bound = LLONG_MAX`; the
lower bound is `LLONG_MIN` or a boundary of the table; and
`lower_bound ≤ upper_bound`. -/
theorem C16_cursor_bound_consistency (statics : Option Globals) (a : InitArgs) (g0 g : Globals)
    (hinit : InitOk statics a g0) (hr : Reachable g0 g) :
    -1 ≤ g.fast_now_transition_index ∧
    g.fast_now_transition_index ≤ PySequence_Fast_GET_SIZE g.fast_now_timestamps ∧
    (g.fast_now_transition_index = -1 ↔ g = g0) ∧
    (g.fast_now_transition_index = -1 →
      g.fast_now_pre_transition_secs = PY_LLONG_MIN ∧
        g.fast_now_post_transition_secs = PY_LLONG_MIN) ∧
    (0 ≤ g.fast_now_transition_index →
      g.fast_now_transition_index < PySequence_Fast_GET_SIZE g.fast_now_timestamps →
      PySequence_Fast_GET_ITEM g.fast_now_timestamps g.fast_now_transition_index
        = some g.fast_now_post_transition_secs) ∧
    (g.fast_now_transition_index = PySequence_Fast_GET_SIZE g.fast_now_timestamps →
      g.fast_now_post_transition_secs = PY_LLONG_MAX) ∧
    (g.fast_now_pre_transition_secs = PY_LLONG_MIN ∨
      g.fast_now_pre_transition_secs ∈ g.fast_now_timestamps) ∧
    g.fast_now_pre_transition_secs ≤ g.fast_now_post_transition_secs ∧
    g.fast_now_timestamps = g0.fast_now_timestamps := by
  have hw0 := initOk_shape statics a g0 hinit
  obtain ⟨hi0, hpre0, hpost0⟩ := initOk_ordered statics a g0 hinit
  obtain ⟨hw, hst⟩ := reachable_shape g0 g hw0 hr
  have ho := reachable_ordered g0 g hw0 (by omega) hr
  have hfresh := reachable_fresh_or_nonneg g0 g hi0 hpost0 hr
  have hsz := size_nonneg g.fast_now_timestamps
  refine ⟨windowShape_index_ge g hw, ?_, ?_, ?_, ?_, ?_, windowShape_pre g hw, ho, hst.2.2.1⟩
  · rcases hw with h | h | h
    · omega
    · have := (getItem_bounds h.2.1).2
      omega
    · omega
  · constructor
    · intro h
      rcases hfresh with h' | h'
      · exact h'
      · omega
    · intro h
      rw [h]
      exact hi0
  · intro h
    rcases hw with h' | h' | h'
    · exact h'.2
    · omega
    · omega
  · intro h1 h2
    rcases hw with h' | h' | h'
    · omega
    · exact h'.2.1
    · omega
  · intro h
    rcases hw with h' | h' | h'
    · omega
    · have := (getItem_bounds h'.2.1).2
      omega
    · exact h'.2.1

/-- C16 at the scenario, in the state after the calls at 500, 1500 and 2500. -/
theorem C16_cursor_bound_consistency_witness :
    (scenarioWindow 2000 PY_LLONG_MAX 2 UTC).fast_now_transition_index
        ≤ PySequence_Fast_GET_SIZE (scenarioWindow 2000 PY_LLONG_MAX 2 UTC).fast_now_timestamps ∧
      (scenarioWindow 2000 PY_LLONG_MAX 2 UTC).fast_now_pre_transition_secs
        ≤ (scenarioWindow 2000 PY_LLONG_MAX 2 UTC).fast_now_post_transition_secs :=
  ⟨(C16_cursor_bound_consistency none scenarioArgs scenarioGlobals
      (scenarioWindow 2000 PY_LLONG_MAX 2 UTC) (by decide)
      ⟨[500, 1500, 2500], by decide, by decide⟩).2.1,
    (C16_cursor_bound_consistency none scenarioArgs scenarioGlobals
      (scenarioWindow 2000 PY_LLONG_MAX 2 UTC) (by decide)
      ⟨[500, 1500, 2500], by decide, by decide⟩).2.2.2.2.2.2.2.1⟩


/-- A call at an instant the window holds changes nothing. -/
theorem update_tzinfo_in_window (g : Globals) (t : Int)
    (hlo : g.fast_now_pre_transition_secs ≤ t) (hhi : t < g.fast_now_post_transition_secs) :
    update_tzinfo g t = .ok g := by
  have hns : isStale g t = false := by
    cases hst : isStale g t with
    | false => rfl
    | true =>
      rcases (isStale_iff g t).1 hst with h | h <;> omega
  simp [update_tzinfo, hns]

theorem queries_fixed (g : Globals) (qs : List Int)
    (h : ∀ q ∈ qs, update_tzinfo g q = .ok g) : queries g qs = .ok g := by
  induction qs with
  | nil => rfl
  | cons q qs ih =>
    simp only [queries, h q (List.mem_cons_self _ _)]
    exact ih (fun x hx => h x (List.mem_cons_of_mem _ hx))

/-- C19: after a successful `init` with an empty transition table, the first
call at any `long long` instant leaves the window `[LLONG_MIN, LLONG_MAX)` with
cursor 0 and the timezone `descriptors[default_index]`; every later call at a
`long long` instant (so every one below `LLONG_MAX`) changes nothing, and any
sequence of later calls ends in the same statics. -/
theorem C19_empty_table (statics : Option Globals) (a : InitArgs) (g0 : Globals) (t : Int)
    (hinit : InitOk statics a g0) (hempty : a.timestamps = .iterable []) (ht : isLongLong t) :
    ∃ g1, update_tzinfo g0 t = .ok g1 ∧
      g1.fast_now_pre_transition_secs = PY_LLONG_MIN ∧
      g1.fast_now_post_transition_secs = PY_LLONG_MAX ∧
      g1.fast_now_transition_index = 0 ∧
      (∃ tzinfos, a.tzinfos = .iterable tzinfos ∧
        PySequence_Fast_GET_ITEM tzinfos a.default_index = some g1.fast_now_tzinfo) ∧
      SameTables g0 g1 ∧
      (∀ t', isLongLong t' → update_tzinfo g1 t' = .ok g1) ∧
      (∀ qs : List Int, (∀ q ∈ qs, isLongLong q) → queries g1 qs = .ok g1) := by
  obtain ⟨tzinfos, timestamps, indexes, tzinfo, h1, h2, h3, h4, h5, h6, hg⟩ :=
    initOk_eq statics a g0 hinit
  rw [hempty] at h2
  cases h2
  subst hg
  have hfirst : update_tzinfo (freshGlobals a.cls tzinfos [] indexes tzinfo) t
      = .ok (exhaustedExit (freshGlobals a.cls tzinfos [] indexes tzinfo)) := by
    have hs : isStale (freshGlobals a.cls tzinfos [] indexes tzinfo) t = true :=
      (isStale_iff _ t).2 (Or.inl ht.1)
    have hstart : scanStart (freshGlobals a.cls tzinfos [] indexes tzinfo) t
        = (-1, PY_LLONG_MIN) := scanStart_forward _ t ht.1
    simp only [update_tzinfo, hs, hstart, if_true]
    rfl
  have hlater : ∀ t', isLongLong t' →
      update_tzinfo (exhaustedExit (freshGlobals a.cls tzinfos [] indexes tzinfo)) t'
        = .ok (exhaustedExit (freshGlobals a.cls tzinfos [] indexes tzinfo)) := by
    intro t' ht'
    by_cases hlt : t' < PY_LLONG_MAX
    · exact update_tzinfo_in_window _ t' ht'.1 hlt
    · have heq : t' = PY_LLONG_MAX := by
        have := ht'.2
        omega
      subst heq
      rfl
  refine ⟨exhaustedExit (freshGlobals a.cls tzinfos [] indexes tzinfo), hfirst, rfl, rfl, rfl,
    ⟨tzinfos, h1, h5⟩, ⟨rfl, rfl, rfl, rfl⟩, hlater, ?_⟩
  intro qs hqs
  exact queries_fixed _ qs (fun q hq => hlater q (hqs q hq))

/-- C19 at an empty table with default descriptor `UTC+1`, first call at 1500. -/
theorem C19_empty_table_witness :
    ∃ g1, update_tzinfo emptyTableGlobals 1500 = .ok g1 ∧
      g1.fast_now_pre_transition_secs = PY_LLONG_MIN ∧
      g1.fast_now_post_transition_secs = PY_LLONG_MAX ∧
      g1.fast_now_transition_index = 0 ∧ g1.fast_now_tzinfo = UTC1 ∧
      queries g1 [500, 2500, PY_LLONG_MAX] = .ok g1 := by
  obtain ⟨g1, h1, h2, h3, h4, ⟨tzinfos, h5, h6⟩, _, _, h8⟩ :=
    C19_empty_table none emptyTableArgs emptyTableGlobals 1500 (by decide) rfl (by decide)
  refine ⟨g1, h1, h2, h3, h4, ?_, h8 _ (by decide)⟩
  have h7 : tzinfos = [UTC, UTC1] := by
    simp only [emptyTableArgs, SeqArg.iterable.injEq] at h5
    exact h5.symm
  subst h7
  have h9 : PySequence_Fast_GET_ITEM [UTC, UTC1] emptyTableArgs.default_index = some UTC1 := by
    decide
  rw [h9] at h6
  exact (Option.some.inj h6).symm


/-! ## Queries below the last boundary -/

theorem globals_eq_foundExit (g0 g : Globals) (hst : SameTables g0 g) :
    g = foundExit g0 g.fast_now_transition_index g.fast_now_pre_transition_secs
      g.fast_now_post_transition_secs g.fast_now_tzinfo := by
  obtain ⟨h1, h2, h3, h4⟩ := hst
  cases g
  cases g0
  simp only at h1 h2 h3 h4
  subst h1 h2 h3 h4
  rfl

/-- Below the last boundary of a strictly increasing table, a call made in a
state that is not exhausted has the outcome of the same call made right after
`init`: the found-boundary exit at the least position with a later boundary. -/
theorem update_tzinfo_eq_fresh (g0 g : Globals) (t last : Int)
    (hi0 : g0.fast_now_transition_index = -1)
    (hpost0 : g0.fast_now_post_transition_secs = PY_LLONG_MIN)
    (hw : WindowShape g) (hst : SameTables g0 g)
    (hne : g.fast_now_transition_index < PySequence_Fast_GET_SIZE g.fast_now_timestamps)
    (hs : StrictlyIncreasing g0.fast_now_timestamps)
    (hlast : PySequence_Fast_GET_ITEM g0.fast_now_timestamps
      (PySequence_Fast_GET_SIZE g0.fast_now_timestamps - 1) = some last)
    (hlt : t < last) (ht : PY_LLONG_MIN ≤ t) :
    update_tzinfo g t = update_tzinfo g0 t ∧
    ∃ i b pre, 0 ≤ i ∧ PySequence_Fast_GET_ITEM g0.fast_now_timestamps i = some b ∧ t < b ∧
      allPassed g0 t (-1) i ∧
      ((i = 0 ∧ pre = PY_LLONG_MIN) ∨
        (0 < i ∧ PySequence_Fast_GET_ITEM g0.fast_now_timestamps (i - 1) = some pre)) ∧
      update_tzinfo g0 t = foundOutcome g0 i pre b := by
  have hts : g.fast_now_timestamps = g0.fast_now_timestamps := hst.2.2.1
  have hlastb := getItem_bounds hlast
  -- the call right after `init` leaves through the found-boundary exit
  obtain ⟨_, _, hcase⟩ := fresh_spec g0 t hi0 hpost0 ht
  have hfound : ∃ i b pre, 0 ≤ i ∧ PySequence_Fast_GET_ITEM g0.fast_now_timestamps i = some b ∧
      t < b ∧ allPassed g0 t (-1) i ∧
      ((i = 0 ∧ pre = PY_LLONG_MIN) ∨
        (0 < i ∧ PySequence_Fast_GET_ITEM g0.fast_now_timestamps (i - 1) = some pre)) ∧
      update_tzinfo g0 t = foundOutcome g0 i pre b := by
    rcases hcase with ⟨hp, _⟩ | h
    · obtain ⟨x, hx1, hx2⟩ := hp (PySequence_Fast_GET_SIZE g0.fast_now_timestamps - 1)
        (by omega) (by omega)
      rw [hlast] at hx1
      cases hx1
      omega
    · exact h
  refine ⟨?_, hfound⟩
  obtain ⟨i, b, pre, hi, hb, hsecs, hp, hpre, hres0⟩ := hfound
  rw [hres0]
  rw [← hts] at hb hpre hs hlast
  have hp' : allPassed g t (-1) i := (allPassed_congr hts t (-1) i).2 hp
  -- every position up to one whose boundary is not later than `t` is passed
  have hbelow : ∀ (c x : Int), PySequence_Fast_GET_ITEM g.fast_now_timestamps c = some x → x ≤ t →
      ∀ k, -1 < k → k ≤ c →
        ∃ y, PySequence_Fast_GET_ITEM g.fast_now_timestamps k = some y ∧ y ≤ t := by
    intro c x hc hx k hk1 hk2
    obtain ⟨y, hy⟩ := getItem_inRange g.fast_now_timestamps k (by omega)
      (by have := (getItem_bounds hc).2; omega)
    exact ⟨y, hy, by have := strictlyIncreasing_getItem_le hs hy hc hk2; omega⟩
  -- the outcome once the exit position and the lower bound are known
  have hsame : ∀ (j b' pre' : Int), -1 < j →
      PySequence_Fast_GET_ITEM g.fast_now_timestamps j = some b' → t < b' →
      allPassed g t (-1) j →
      ((j = 0 ∧ pre' = PY_LLONG_MIN) ∨
        (0 < j ∧ PySequence_Fast_GET_ITEM g.fast_now_timestamps (j - 1) = some pre')) →
      foundOutcome g j pre' b' = foundOutcome g0 i pre b := by
    intro j b' pre' hj hb' hsecs' hpj hpre'
    have hji := first_unique g t (-1) j i b' b hb' hsecs' hpj hj hb hsecs hp' (by omega)
    subst hji
    rw [hb] at hb'
    cases hb'
    have hpp : pre' = pre := by
      rcases hpre with ⟨h1, h2⟩ | ⟨h1, h2⟩ <;> rcases hpre' with ⟨h3, h4⟩ | ⟨h3, h4⟩
      · rw [h2, h4]
      · omega
      · omega
      · rw [h2] at h4
        cases h4
        rfl
    subst hpp
    exact foundOutcome_congr hst j pre' b
  rcases update_tzinfo_spec g t (windowShape_index_ge g hw) with ⟨hns, hres⟩ | ⟨hstale, ⟨hge, _⟩ | ⟨hlt', hpx, _⟩ | ⟨j, b', pre', hj, hb', hsecs', hpj, hpre', hres⟩⟩
  · -- the window holds `t`: the state is the one a fresh scan builds
    have hin : ¬ (g.fast_now_post_transition_secs ≤ t ∨ t < g.fast_now_pre_transition_secs) := by
      intro hc
      rw [(isStale_iff g t).2 hc] at hns
      cases hns
    rw [hres]
    rcases hw with hf | hf | hf
    · omega
    · have hpc : allPassed g t (-1) g.fast_now_transition_index := by
        intro k hk1 hk2
        rcases hf.2.2.2 with ⟨hc, _⟩ | hprev
        · omega
        · exact hbelow _ _ hprev (by omega) k hk1 (by omega)
      have hpre'' : (g.fast_now_transition_index = 0 ∧
            g.fast_now_pre_transition_secs = PY_LLONG_MIN) ∨
          (0 < g.fast_now_transition_index ∧
            PySequence_Fast_GET_ITEM g.fast_now_timestamps (g.fast_now_transition_index - 1)
              = some g.fast_now_pre_transition_secs) := by
        rcases hf.2.2.2 with hc | hprev
        · exact Or.inl hc
        · exact Or.inr ⟨by have := (getItem_bounds hprev).1; omega, hprev⟩
      rw [← hsame _ _ _ (by omega) hf.2.1 (by omega) hpc hpre'']
      simp only [foundOutcome, hf.2.2.1]
      exact congrArg Outcome.ok (by
        have h1 := globals_eq_foundExit g g (sameTables_refl g)
        exact h1)
    · omega
  · -- the loop is always entered
    by_cases hf : g.fast_now_post_transition_secs ≤ t
    · rw [scanStart_forward g t hf] at hge
      simp only at hge
      omega
    · rw [scanStart_restart g t (by omega)] at hge
      simp only at hge
      have := size_nonneg g.fast_now_timestamps
      omega
  · -- the table is not exhausted
    exfalso
    have hsz : PySequence_Fast_GET_SIZE g.fast_now_timestamps
        = PySequence_Fast_GET_SIZE g0.fast_now_timestamps := by rw [hts]
    by_cases hf : g.fast_now_post_transition_secs ≤ t
    · rw [scanStart_forward g t hf] at hlt' hpx
      simp only at hlt' hpx
      by_cases hc : g.fast_now_transition_index
          = PySequence_Fast_GET_SIZE g.fast_now_timestamps - 1
      · rcases hw with hf' | hf' | hf'
        · omega
        · rw [hc, hlast] at hf'
          have := Option.some.inj hf'.2.1
          omega
        · omega
      · obtain ⟨x, hx1, hx2⟩ := hpx (PySequence_Fast_GET_SIZE g.fast_now_timestamps - 1)
          (by omega) (by omega)
        rw [hlast] at hx1
        cases hx1
        omega
    · rw [scanStart_restart g t (by omega)] at hpx
      simp only at hpx
      obtain ⟨x, hx1, hx2⟩ := hpx (PySequence_Fast_GET_SIZE g.fast_now_timestamps - 1)
        (by omega) (by omega)
      rw [hlast] at hx1
      cases hx1
      omega
  · -- the found-boundary exit: the same position as a fresh scan
    rw [hres]
    by_cases hf : g.fast_now_post_transition_secs ≤ t
    · rw [scanStart_forward g t hf] at hj hpj hpre'
      simp only at hj hpj hpre'
      rcases hw with hf' | hf' | hf'
      · rw [hf'.1] at hj hpj hpre'
        refine hsame j b' pre' hj hb' hsecs' hpj ?_
        rcases hpre' with ⟨h1, h2⟩ | ⟨h1, h2⟩
        · exact Or.inl ⟨by omega, by rw [h2]; exact hf'.2.2⟩
        · exact Or.inr ⟨by omega, h2⟩
      · have hpj' : allPassed g t (-1) j := by
          intro k hk1 hk2
          by_cases hk : k ≤ g.fast_now_transition_index
          · exact hbelow _ _ hf'.2.1 hf k hk1 hk
          · exact hpj k (by omega) hk2
        refine hsame j b' pre' (by omega) hb' hsecs' hpj' (Or.inr ⟨by omega, ?_⟩)
        rcases hpre' with ⟨h1, h2⟩ | ⟨h1, h2⟩
        · have : j - 1 = g.fast_now_transition_index := by omega
          rw [this, h2]
          exact hf'.2.1
        · exact h2
      · omega
    · rw [scanStart_restart g t (by omega)] at hj hpj hpre'
      simp only at hj hpj hpre'
      refine hsame j b' pre' hj hb' hsecs' hpj ?_
      rcases hpre' with ⟨h1, h2⟩ | ⟨h1, h2⟩
      · exact Or.inl ⟨by omega, h2⟩
      · exact Or.inr ⟨by omega, h2⟩


/-- Calls below the last boundary never exhaust the table. -/
theorem queries_below_last (g0 : Globals) (last : Int)
    (hi0 : g0.fast_now_transition_index = -1)
    (hpost0 : g0.fast_now_post_transition_secs = PY_LLONG_MIN)
    (hs : StrictlyIncreasing g0.fast_now_timestamps)
    (hlast : PySequence_Fast_GET_ITEM g0.fast_now_timestamps
      (PySequence_Fast_GET_SIZE g0.fast_now_timestamps - 1) = some last) :
    ∀ (qs : List Int) (s g : Globals), WindowShape s → SameTables g0 s →
      s.fast_now_transition_index < PySequence_Fast_GET_SIZE s.fast_now_timestamps →
      (∀ q ∈ qs, PY_LLONG_MIN ≤ q ∧ q < last) → queries s qs = .ok g →
      WindowShape g ∧ SameTables g0 g ∧
        g.fast_now_transition_index < PySequence_Fast_GET_SIZE g.fast_now_timestamps := by
  intro qs
  induction qs with
  | nil =>
    intro s g hw hst hne _ hq
    simp only [queries, Outcome.ok.injEq] at hq
    subst hq
    exact ⟨hw, hst, hne⟩
  | cons q qs ih =>
    intro s g hw hst hne hqs hq
    obtain ⟨s1, hu, hrest⟩ := queries_ok_cons hq
    obtain ⟨hq1, hq2⟩ := hqs q (List.mem_cons_self _ _)
    have hw1 := update_tzinfo_shape s s1 q hw hq1 hu
    have hst1 := sameTables_trans hst
      (update_tzinfo_sameTables s s1 q (windowShape_index_ge s hw) hu)
    obtain ⟨heq, i, b, pre, _, hb, _, _, _, hres⟩ :=
      update_tzinfo_eq_fresh g0 s q last hi0 hpost0 hw hst hne hs hlast hq2 hq1
    rw [heq, hres] at hu
    obtain ⟨tz, _, hs1⟩ := foundOutcome_ok hu
    have hne1 : s1.fast_now_transition_index
        < PySequence_Fast_GET_SIZE s1.fast_now_timestamps := by
      rw [hst1.2.2.1, hs1]
      exact (getItem_bounds hb).2
    exact ih s1 g hw1 hst1 hne1 (fun x hx => hqs x (List.mem_cons_of_mem _ hx)) hrest

/-- C14: for a strictly increasing table with last boundary `last` and a
non-decreasing sequence of `long long` clock readings made after a successful
`init`, the call at a reading `t < last` has the outcome of the same call made
right after `init`: with `i` the least position whose boundary `b` is later than
`t`, it is the found-boundary exit with upper bound `b`, cursor `i`, timezone
`descriptors[indexes[i]]` and lower bound `boundary[i-1]`, or `LLONG_MIN` when
`i = 0`; with valid indexes it is a state. -/
theorem C14_incremental_scan_refines_full_scan (statics : Option Globals) (a : InitArgs)
    (g0 g : Globals) (qs : List Int) (t last : Int) (hinit : InitOk statics a g0)
    (hs : StrictlyIncreasing g0.fast_now_timestamps)
    (hlast : PySequence_Fast_GET_ITEM g0.fast_now_timestamps
      (PySequence_Fast_GET_SIZE g0.fast_now_timestamps - 1) = some last)
    (hmono : NonDecreasing (qs ++ [t])) (hll : ∀ q ∈ qs ++ [t], isLongLong q)
    (hlt : t < last) (hq : queries g0 qs = .ok g) :
    update_tzinfo g t = update_tzinfo g0 t ∧
    ∃ i b pre, 0 ≤ i ∧ PySequence_Fast_GET_ITEM g0.fast_now_timestamps i = some b ∧ t < b ∧
      allPassed g0 t (-1) i ∧
      ((i = 0 ∧ pre = PY_LLONG_MIN) ∨
        (0 < i ∧ PySequence_Fast_GET_ITEM g0.fast_now_timestamps (i - 1) = some pre)) ∧
      update_tzinfo g t = foundOutcome g0 i pre b ∧
      (∀ tz, descriptorAt g0 i = some tz → update_tzinfo g t = .ok (foundExit g0 i pre b tz)) ∧
      (IndexesValid g0 → ∃ tz, update_tzinfo g t = .ok (foundExit g0 i pre b tz)) := by
  have hw0 := initOk_shape statics a g0 hinit
  obtain ⟨hi0, _, hpost0⟩ := initOk_ordered statics a g0 hinit
  have hle : ∀ q ∈ qs, q ≤ t := by
    intro q hq'
    have h := (List.pairwise_append.1 hmono).2.2 q hq' t (List.mem_singleton_self t)
    exact h
  have hbelow : ∀ q ∈ qs, PY_LLONG_MIN ≤ q ∧ q < last := by
    intro q hq'
    have h1 := (hll q (List.mem_append_left _ hq')).1
    have h2 := hle q hq'
    exact ⟨h1, by omega⟩
  have hne0 : g0.fast_now_transition_index
      < PySequence_Fast_GET_SIZE g0.fast_now_timestamps := by
    have := size_nonneg g0.fast_now_timestamps
    omega
  obtain ⟨hw, hst, hne⟩ := queries_below_last g0 last hi0 hpost0 hs hlast qs g0 g hw0
    (sameTables_refl g0) hne0 hbelow hq
  have htl := (hll t (List.mem_append_right _ (List.mem_singleton_self t))).1
  obtain ⟨heq, i, b, pre, hi, hb, hsecs, hp, hpre, hres⟩ :=
    update_tzinfo_eq_fresh g0 g t last hi0 hpost0 hw hst hne hs hlast hlt htl
  refine ⟨heq, i, b, pre, hi, hb, hsecs, hp, hpre, by rw [heq]; exact hres, ?_, ?_⟩
  · intro tz htz
    rw [heq, hres]
    simp [foundOutcome, htz]
  · intro hv
    obtain ⟨tz, htz⟩ := indexesValid_descriptorAt g0 hv i hi (getItem_bounds hb).2
    exact ⟨tz, by rw [heq, hres]; simp [foundOutcome, htz]⟩

/-- C14 at the scenario: the readings 500, 700, 1500 and then 1700. -/
theorem C14_incremental_scan_refines_full_scan_witness :
    update_tzinfo (scenarioWindow 1000 2000 1 UTC) 1700 = update_tzinfo scenarioGlobals 1700 ∧
      update_tzinfo (scenarioWindow 1000 2000 1 UTC) 1700
        = .ok (foundExit scenarioGlobals 1 1000 2000 UTC) := by
  obtain ⟨h1, i, b, pre, hi, hb, hsecs, hp, hpre, hres, _, _⟩ :=
    C14_incremental_scan_refines_full_scan none scenarioArgs scenarioGlobals
      (scenarioWindow 1000 2000 1 UTC) [500, 700, 1500] 1700 2000 (by decide) (by decide)
      (by decide) (by decide) (by decide) (by decide) (by decide)
  exact ⟨h1, by decide⟩


/-! ## Bounds on the loop -/

/-- The recorded loop computes what the loop computes. -/
theorem scanLoopLog_fst (g : Globals) (secs : Int) :
    ∀ (fuel : Nat) (idx pre_tr : Int),
      (scanLoopLog g secs fuel idx pre_tr).1 = scanLoop g secs fuel idx pre_tr := by
  intro fuel
  induction fuel with
  | zero => intro idx pre_tr; rfl
  | succ fuel ih =>
    intro idx pre_tr
    unfold scanLoopLog scanLoop
    by_cases hlt : idx < PySequence_Fast_GET_SIZE g.fast_now_timestamps
    · by_cases hend : idx + 1 = PySequence_Fast_GET_SIZE g.fast_now_timestamps
      · simp [hlt, hend]
      · simp only [hlt, hend, if_true, if_false]
        cases hb : PySequence_Fast_GET_ITEM g.fast_now_timestamps (idx + 1) with
        | none => rfl
        | some b =>
          by_cases hgt : b > secs
          · simp only [hgt, if_true]
            cases hix : PySequence_Fast_GET_ITEM g.fast_now_indexes (idx + 1) with
            | none => rfl
            | some ix =>
              dsimp only
              cases htz : PySequence_Fast_GET_ITEM g.fast_now_tzinfos ix <;> rfl
          · simp only [hgt, if_false]
            exact ih (idx + 1) b
    · simp [hlt]

/-- Any two amounts of fuel that cover the rest of the table give the same
result. -/
theorem scanLoop_fuel (g : Globals) (secs : Int) :
    ∀ (f1 f2 : Nat) (idx pre_tr : Int), 1 ≤ f1 → 1 ≤ f2 →
      (PySequence_Fast_GET_SIZE g.fast_now_timestamps - idx).toNat ≤ f1 →
      (PySequence_Fast_GET_SIZE g.fast_now_timestamps - idx).toNat ≤ f2 →
      scanLoop g secs f1 idx pre_tr = scanLoop g secs f2 idx pre_tr := by
  intro f1
  induction f1 with
  | zero => intro f2 idx pre_tr h; omega
  | succ f1 ih =>
    intro f2 idx pre_tr _ h2 h3 h4
    cases f2 with
    | zero => omega
    | succ f2 =>
      unfold scanLoop
      by_cases hlt : idx < PySequence_Fast_GET_SIZE g.fast_now_timestamps
      · by_cases hend : idx + 1 = PySequence_Fast_GET_SIZE g.fast_now_timestamps
        · simp [hlt, hend]
        · simp only [hlt, hend, if_true, if_false]
          cases hb : PySequence_Fast_GET_ITEM g.fast_now_timestamps (idx + 1) with
          | none => rfl
          | some b =>
            by_cases hgt : b > secs
            · simp only [hgt, if_true]
            · simp only [hgt, if_false]
              exact ih f2 (idx + 1) b (by omega) (by omega) (by omega) (by omega)
      · simp [hlt]

/-- The body is entered at most once per remaining position, the end included. -/
theorem scanLoopLog_iterations (g : Globals) (secs : Int) :
    ∀ (fuel : Nat) (idx pre_tr : Int),
      (scanLoopLog g secs fuel idx pre_tr).2.iterations
        ≤ (PySequence_Fast_GET_SIZE g.fast_now_timestamps - idx).toNat := by
  intro fuel
  induction fuel with
  | zero => intro idx pre_tr; simp [scanLoopLog]
  | succ fuel ih =>
    intro idx pre_tr
    unfold scanLoopLog
    by_cases hlt : idx < PySequence_Fast_GET_SIZE g.fast_now_timestamps
    · by_cases hend : idx + 1 = PySequence_Fast_GET_SIZE g.fast_now_timestamps
      · simp only [hlt, hend, if_true]
        omega
      · simp only [hlt, hend, if_true, if_false]
        cases hb : PySequence_Fast_GET_ITEM g.fast_now_timestamps (idx + 1) with
        | none => simp only; omega
        | some b =>
          by_cases hgt : b > secs
          · simp only [hgt, if_true]
            cases hix : PySequence_Fast_GET_ITEM g.fast_now_indexes (idx + 1) with
            | none => simp only; omega
            | some ix =>
              dsimp only
              cases htz : PySequence_Fast_GET_ITEM g.fast_now_tzinfos ix <;> simp only <;> omega
          · simp only [hgt, if_false]
            have := ih (idx + 1) b
            omega
    · simp [hlt]

/-- Started at a cursor of at least `-1`, the loop reads the boundary table and
the index table at table positions only, and the descriptor table at entries of
the index table only. -/
theorem scanLoopLog_reads (g : Globals) (secs : Int) :
    ∀ (fuel : Nat) (idx pre_tr : Int), -1 ≤ idx →
      (∀ r ∈ (scanLoopLog g secs fuel idx pre_tr).2.timestampReads,
        0 ≤ r ∧ r < PySequence_Fast_GET_SIZE g.fast_now_timestamps) ∧
      (∀ r ∈ (scanLoopLog g secs fuel idx pre_tr).2.indexReads,
        0 ≤ r ∧ r < PySequence_Fast_GET_SIZE g.fast_now_timestamps) ∧
      (∀ r ∈ (scanLoopLog g secs fuel idx pre_tr).2.tzinfoReads, r ∈ g.fast_now_indexes) := by
  intro fuel
  induction fuel with
  | zero => intro idx pre_tr _; simp [scanLoopLog]
  | succ fuel ih =>
    intro idx pre_tr hidx
    unfold scanLoopLog
    by_cases hlt : idx < PySequence_Fast_GET_SIZE g.fast_now_timestamps
    · by_cases hend : idx + 1 = PySequence_Fast_GET_SIZE g.fast_now_timestamps
      · simp [hlt, hend]
      · simp only [hlt, hend, if_true, if_false]
        have hin : 0 ≤ idx + 1 ∧ idx + 1 < PySequence_Fast_GET_SIZE g.fast_now_timestamps :=
          ⟨by omega, by omega⟩
        cases hb : PySequence_Fast_GET_ITEM g.fast_now_timestamps (idx + 1) with
        | none => simp [hin]
        | some b =>
          by_cases hgt : b > secs
          · simp only [hgt, if_true]
            cases hix : PySequence_Fast_GET_ITEM g.fast_now_indexes (idx + 1) with
            | none => simp [hin]
            | some ix =>
              have hmem := getItem_mem hix
              dsimp only
              cases htz : PySequence_Fast_GET_ITEM g.fast_now_tzinfos ix <;> simp [hin, hmem]
          · simp only [hgt, if_false]
            obtain ⟨h1, h2, h3⟩ := ih (idx + 1) b (by omega)
            refine ⟨?_, h2, h3⟩
            intro r hr
            rcases List.mem_cons.1 hr with h | h
            · rw [h]; exact hin
            · exact h1 r h
    · simp [hlt]

/-- The recorded update computes the window update. -/
theorem update_tzinfo_log_fst (g : Globals) (secs : Int)
    (hidx : -1 ≤ g.fast_now_transition_index) :
    (update_tzinfo_log g secs).1 = update_tzinfo g secs := by
  unfold update_tzinfo_log update_tzinfo
  by_cases hs : isStale g secs = true
  · simp only [hs, if_true]
    rw [scanLoopLog_fst]
    have hstart := scanStart_ge g secs hidx
    apply scanLoop_fuel
    · omega
    · unfold scanFuel; omega
    · unfold PySequence_Fast_GET_SIZE; omega
    · unfold scanFuel; omega
  · simp [hs]


theorem foundOutcome_ne_outOfFuel (g : Globals) (j pre b : Int) :
    foundOutcome g j pre b ≠ .outOfFuel := by
  unfold foundOutcome
  cases descriptorAt g j <;> simp

/-- C17: for any statics with a cursor of at least `-1` (so for every cursor in
`[-1, n]`, `n` the table length) and any call at `t`: the window update run with
fuel for `n + 1` iterations is the window update, which never runs out of fuel;
the loop body is entered at most `n + 1` times; the boundary and index tables
are read at positions in `[0, n)` only; and when the index table is as long as
the boundary table and holds positions of the descriptor table only, every
descriptor read is inside the descriptor table and the update returns a state.
Likewise `init` reads inside the descriptor table whenever `default_index` is one
of its positions. -/
theorem C17_bounded_in_range_scan (g : Globals) (t : Int)
    (hlo : -1 ≤ g.fast_now_transition_index) :
    (update_tzinfo_log g t).1 = update_tzinfo g t ∧
    update_tzinfo g t ≠ .outOfFuel ∧
    (update_tzinfo_log g t).2.iterations ≤ g.fast_now_timestamps.length + 1 ∧
    (∀ r ∈ (update_tzinfo_log g t).2.timestampReads,
      0 ≤ r ∧ r < PySequence_Fast_GET_SIZE g.fast_now_timestamps) ∧
    (∀ r ∈ (update_tzinfo_log g t).2.indexReads,
      0 ≤ r ∧ r < PySequence_Fast_GET_SIZE g.fast_now_timestamps) ∧
    (IndexesValid g →
      (∀ r ∈ (update_tzinfo_log g t).2.tzinfoReads,
        0 ≤ r ∧ r < PySequence_Fast_GET_SIZE g.fast_now_tzinfos) ∧
      ∃ g', update_tzinfo g t = .ok g') ∧
    (∀ (statics : Option Globals) (a : InitArgs), DefaultInRange a →
      fast_now_init statics a ≠ .undefined) := by
  have hstart := scanStart_ge g t hlo
  have hreads : (∀ r ∈ (update_tzinfo_log g t).2.timestampReads,
        0 ≤ r ∧ r < PySequence_Fast_GET_SIZE g.fast_now_timestamps) ∧
      (∀ r ∈ (update_tzinfo_log g t).2.indexReads,
        0 ≤ r ∧ r < PySequence_Fast_GET_SIZE g.fast_now_timestamps) ∧
      (∀ r ∈ (update_tzinfo_log g t).2.tzinfoReads, r ∈ g.fast_now_indexes) := by
    unfold update_tzinfo_log
    by_cases hs : isStale g t = true
    · simp only [hs, if_true]
      exact scanLoopLog_reads g t _ _ _ hstart
    · simp [hs]
  refine ⟨update_tzinfo_log_fst g t hlo, ?_, ?_, hreads.1, hreads.2.1, ?_, ?_⟩
  · rcases update_tzinfo_spec g t hlo with ⟨_, h⟩ | ⟨_, ⟨_, h⟩ | ⟨_, _, h⟩ | ⟨j, b, pre, _, _, _, _, _, h⟩⟩
    · rw [h]; simp
    · rw [h]; simp
    · rw [h]; simp
    · rw [h]; exact foundOutcome_ne_outOfFuel g j pre b
  · unfold update_tzinfo_log
    by_cases hs : isStale g t = true
    · simp only [hs, if_true]
      have h := scanLoopLog_iterations g t (g.fast_now_timestamps.length + 1) (scanStart g t).1
        (scanStart g t).2
      unfold PySequence_Fast_GET_SIZE at h
      omega
    · simp [hs]
  · intro hv
    exact ⟨fun r hr => hv.2 r (hreads.2.2 r hr), update_tzinfo_total g t hlo hv⟩
  · intro statics a hd
    rcases fast_now_init_cases statics a with ⟨_, e, he⟩ | ⟨_, hnd, _⟩ | ⟨_, _, g0, hg⟩
    · rw [he]; simp
    · exact (hnd hd).elim
    · rw [hg]; simp

/-- C17 at the scenario: the first call after `init`, at 2500, enters the body
three times, reads the boundaries at 0 and 1 and no index or descriptor. -/
theorem C17_bounded_in_range_scan_witness :
    (update_tzinfo_log scenarioGlobals 2500).1 = update_tzinfo scenarioGlobals 2500 ∧
      update_tzinfo scenarioGlobals 2500 ≠ .outOfFuel ∧
      (update_tzinfo_log scenarioGlobals 2500).2.iterations
        ≤ scenarioGlobals.fast_now_timestamps.length + 1 ∧
      (update_tzinfo_log scenarioGlobals 2500).2 = ⟨3, [0, 1], [], []⟩ :=
  ⟨(C17_bounded_in_range_scan scenarioGlobals 2500 (by decide)).1,
    (C17_bounded_in_range_scan scenarioGlobals 2500 (by decide)).2.1,
    (C17_bounded_in_range_scan scenarioGlobals 2500 (by decide)).2.2.1, by decide⟩


end FastNow
